import Mathlib

/-!
Verification development for the ChattersDashboard backend.

This file gives a shallow embedding, in Lean 4, of the parts of the
backend that the specification talks about:

  * the pure metric formulas of app/services/metrics.py
    (safe_div, compute_unlock_ratio, parse_art_interval);
  * the spreadsheet/CSV import reconciler of app/import_excel.py
    (cell value coercions, flexible date parsing, upsert_team,
    upsert_chatter, upsert_performance, upsert_shift, and the four
    row-processing loops for the legacy and simplified layouts in
    both the Excel and the CSV flavours);
  * the dashboard snapshot builder of
    app/routers/dashboard_metrics.py from the point where the
    computed per-chatter rows are ranked, merged with the manual
    DashboardMetric override rows and re-sorted.

Machine reals of the Python code are modelled by rationals, database
rows by Lean structures, the relational store by lists of rows, and
the ORM session by explicit state passing; Python exceptions are
modelled by Except.  Python library primitives that the code calls
(float(), int(), datetime.strptime, re.search) are modelled by
executable Lean functions that are faithful on the value domains
the importer feeds them; each such model documents its scope.
-/

namespace Chatters

/-! ## Character and string helpers (structural, kernel-reducible) -/

/-- Whitespace test used for Python str.strip and for the regex class
backslash-s on the strings the importer handles. -/
def isWs (c : Char) : Bool :=
  c == ' ' || c == '\t' || c == '\n' || c == '\r'

/-- Strip leading and trailing whitespace from a character list
(models Python str.strip with no argument). -/
def trimChars (l : List Char) : List Char :=
  ((l.dropWhile isWs).reverse.dropWhile isWs).reverse

/-- Split a character list on a separator character; models
String.split on a single-character separator.  Always returns at
least one (possibly empty) chunk. -/
def splitOnChar (sep : Char) : List Char → List (List Char)
  | [] => [[]]
  | c :: rest =>
    let r := splitOnChar sep rest
    if c == sep then [] :: r
    else
      match r with
      | [] => [[c]]
      | h :: t => (c :: h) :: t

/-- Numeric value of a digit string (most significant digit first). -/
def natOfDigits (l : List Char) : Nat :=
  l.foldl (fun n c => n * 10 + (c.toNat - 48)) 0

/-- All characters are ASCII digits. -/
def allDigits (l : List Char) : Bool :=
  l.all Char.isDigit

/-- Peel an optional leading sign; returns (negative, rest). -/
def signSplit (l : List Char) : Bool × List Char :=
  match l with
  | '-' :: r => (true, r)
  | '+' :: r => (false, r)
  | _ => (false, l)

/-- Unsigned decimal literal: digits, optionally with one dot, at
least one digit overall. -/
def parseDecimalCore (l : List Char) : Option Rat :=
  match splitOnChar '.' l with
  | [a] =>
    if a ≠ [] ∧ allDigits a = true then some ((natOfDigits a : Nat) : Rat) else none
  | [a, b] =>
    if (a ≠ [] ∨ b ≠ []) ∧ allDigits a = true ∧ allDigits b = true then
      some ((natOfDigits a : Rat) + (natOfDigits b : Rat) / ((10 : Rat) ^ b.length))
    else none
  | _ => none

/-- Model of the Python builtin float() on a string, restricted to
plain signed decimal literals with optional surrounding whitespace;
the exotic forms float() also accepts (exponents, inf, nan,
underscores) are not produced by the import data paths under
consideration.  Failure (None) models the ValueError that
the importer catches. -/
def parsePyFloat (s : String) : Option Rat :=
  let l := trimChars s.data
  let p := signSplit l
  (parseDecimalCore p.2).map (fun q => if p.1 then -q else q)

/-- Model of the Python builtin int() on a string: optional sign and
digits only (so "5.5" fails, as in Python). -/
def parsePyInt (s : String) : Option Int :=
  let l := trimChars s.data
  let p := signSplit l
  if p.2 ≠ [] ∧ allDigits p.2 = true then
    some (if p.1 then -(natOfDigits p.2 : Int) else (natOfDigits p.2 : Int))
  else none

/-- Decimal digits of a natural number, via explicit fuel so that the
definition is structural and kernel-reducible. -/
def natToCharsAux : Nat → Nat → List Char
  | 0, _ => []
  | fuel + 1, n =>
    if n = 0 then []
    else natToCharsAux fuel (n / 10) ++ [Char.ofNat (48 + n % 10)]

/-- Decimal rendering of a natural number. -/
def natToChars (n : Nat) : List Char :=
  if n = 0 then ['0'] else natToCharsAux (n + 1) n

/-! ## Dates -/

/-- A calendar date (year, month, day). -/
structure YMD where
  year : Nat
  month : Nat
  day : Nat
deriving DecidableEq

/-- Gregorian leap-year rule, as validated by datetime. -/
def isLeapYear (y : Nat) : Bool :=
  (y % 4 == 0 && y % 100 != 0) || y % 400 == 0

/-- Days in a month of a given year. -/
def daysInMonth (y m : Nat) : Nat :=
  if m = 2 then (if isLeapYear y then 29 else 28)
  else if m = 4 ∨ m = 6 ∨ m = 9 ∨ m = 11 then 30
  else 31

/-- Calendar validity as enforced by datetime.strptime. -/
def validYMD (y m d : Nat) : Bool :=
  decide (1 ≤ y ∧ y ≤ 9999 ∧ 1 ≤ m ∧ m ≤ 12 ∧ 1 ≤ d ∧ d ≤ daysInMonth y m)

/-- One numeric date component: nonempty, all digits, at most w
characters (strptime accepts unpadded components up to the field
width). -/
def dateComp (w : Nat) (l : List Char) : Bool :=
  decide (l ≠ []) && allDigits l && decide (l.length ≤ w)

/-- Strict ISO date, models strptime with format Y-m-d on a whole
string. -/
def parseIsoYmd (l : List Char) : Option YMD :=
  match splitOnChar '-' l with
  | [a, b, c] =>
    if dateComp 4 a && dateComp 2 b && dateComp 2 c then
      let y := natOfDigits a
      let m := natOfDigits b
      let d := natOfDigits c
      if validYMD y m d then some ⟨y, m, d⟩ else none
    else none
  | _ => none

/-- Strict slash date, models strptime with format m/d/Y on a whole
string. -/
def parseMdySlash (l : List Char) : Option YMD :=
  match splitOnChar '/' l with
  | [a, b, c] =>
    if dateComp 2 a && dateComp 2 b && dateComp 4 c then
      let m := natOfDigits a
      let d := natOfDigits b
      let y := natOfDigits c
      if validYMD y m d then some ⟨y, m, d⟩ else none
    else none
  | _ => none

/-- Time-of-day tail accepted by the datetime.fromisoformat fallback,
modelled as HH:MM:SS. -/
def parseHmsTail (l : List Char) : Bool :=
  match splitOnChar ':' l with
  | [h, m, s] =>
    dateComp 2 h && dateComp 2 m && dateComp 2 s &&
      decide (natOfDigits h ≤ 23 ∧ natOfDigits m ≤ 59 ∧ natOfDigits s ≤ 59)
  | _ => false

/-- Model of the datetime.fromisoformat fallback of
_parse_date_flexible: a date, optionally followed by T or a space and
a time of day. -/
def parseIsoDateTime (l : List Char) : Option YMD :=
  match l.drop 10 with
  | [] => parseIsoYmd l
  | sep :: t =>
    if (sep == 'T' || sep == ' ') && parseHmsTail t then parseIsoYmd (l.take 10)
    else none

/-- Translation of _parse_date_flexible: strict ISO first, then strict
MM/DD/YYYY, then the fromisoformat fallback; None models the
ValueError raised when nothing matches. -/
def parse_date_flexible (s : String) : Option YMD :=
  let l := trimChars s.data
  match parseIsoYmd l with
  | some d => some d
  | none =>
    match parseMdySlash l with
    | some d => some d
    | none => parseIsoDateTime l

/-- Translation of _parse_mmddyyyy_only. -/
def parse_mmddyyyy_only (s : String) : Option YMD :=
  parseMdySlash (trimChars s.data)

/-- The error message _parse_date_flexible raises. -/
def dateErrMsg (s : String) : String :=
  "Unrecognized date format (expected MM/DD/YYYY or YYYY-MM-DD): " ++ s

/-! ## Cell values

A spreadsheet or CSV cell as the importer sees it: Python None, a
number (openpyxl numeric cells; Python makes no int/float difference
the importer cares about beyond int() truncation, so a rational
carries both), a string (every CSV field), or a date (openpyxl
datetime cells). -/

inductive Cell where
  | none
  | num (q : Rat)
  | str (s : String)
  | date (d : YMD)
deriving DecidableEq

/-- Python truthiness of a cell value. -/
def Cell.truthy : Cell → Bool
  | .none => false
  | .num q => decide (q ≠ 0)
  | .str s => decide (s ≠ "")
  | .date _ => true

/-- Rendering of a date cell by the Python builtin str, as used when a
date lands in a name column: str(datetime(y, m, d)) is the ISO date
followed by a midnight time. -/
def ymdChars (d : YMD) : List Char :=
  let pad2 := fun (n : Nat) => if n < 10 then '0' :: natToChars n else natToChars n
  natToChars d.year ++ '-' :: pad2 d.month ++ '-' :: pad2 d.day

/-- Model of the Python builtin str on a cell value.  For numeric
cells the exact Python float rendering is abstracted by the
num/den digit rendering; no claim depends on the name a numeric
cell turns into, only on the facts that the rendering is
deterministic and never contains letters. -/
def pyStr : Cell → String
  | .none => "None"
  | .str s => s
  | .num q =>
    String.mk ((if q < 0 then ['-'] else []) ++ natToChars q.num.natAbs ++
      (if q.den = 1 then [] else '/' :: natToChars q.den))
  | .date d => String.mk (ymdChars d ++ (' ' :: ('0' :: '0' :: ':' :: '0' :: '0' :: ':' :: '0' :: '0' :: [])))

/-- Truncation of a rational toward zero, the behaviour of the Python
builtin int() on a float. -/
def ratTrunc (q : Rat) : Int :=
  if q < 0 then q.ceil else q.floor

/-- Translation of _to_float: None or empty string give None, numbers
pass through, strings are parsed by float(), anything else fails and
the exception is swallowed into None (float of a datetime raises). -/
def to_float : Cell → Option Rat
  | .none => Option.none
  | .num q => some q
  | .str s => if s = "" then Option.none else parsePyFloat s
  | .date _ => Option.none

/-- Translation of _to_int: like _to_float but through int(), which
truncates numbers and rejects non-integer strings. -/
def to_int : Cell → Option Int
  | .none => Option.none
  | .num q => some (ratTrunc q)
  | .str s => if s = "" then Option.none else parsePyInt s
  | .date _ => Option.none

/-! ## ART interval parsing (services/metrics.py)

The regex is (?:(digits)ws*m)?ws*(digits)ws*s, case-insensitive,
applied with re.search (leftmost match).  At a given start position
the engine first tries the optional minutes group; since the group
starts with one-or-more digits followed only by optional whitespace
and the literal m, shortening the greedy digit run can never make the
group succeed, so the match is deterministic without general
backtracking: take the maximal digit run, skip whitespace, require m;
on failure fall back to the group-less alternative at the same
position. -/

/-- Match ws* (digits) ws* [sS] at the start of the list, returning
the seconds value. -/
def artSecondsPart (l : List Char) : Option Nat :=
  let l1 := l.dropWhile isWs
  let ds := l1.takeWhile Char.isDigit
  let l2 := l1.dropWhile Char.isDigit
  if ds = [] then Option.none
  else
    match l2.dropWhile isWs with
    | c :: _ => if c == 's' || c == 'S' then some (natOfDigits ds) else Option.none
    | [] => Option.none

/-- Match the whole pattern at the start of the list, returning total
seconds (minutes times sixty plus seconds). -/
def artMatchAt (l : List Char) : Option Nat :=
  let withMin : Option Nat :=
    let ds := l.takeWhile Char.isDigit
    let l2 := l.dropWhile Char.isDigit
    if ds = [] then Option.none
    else
      match l2.dropWhile isWs with
      | c :: rest =>
        if c == 'm' || c == 'M' then (artSecondsPart rest).map (fun s => natOfDigits ds * 60 + s)
        else Option.none
      | [] => Option.none
  match withMin with
  | some v => some v
  | Option.none => artSecondsPart l

/-- re.search: try every start position left to right. -/
def artSearch : List Char → Option Nat
  | [] => Option.none
  | c :: rest =>
    match artMatchAt (c :: rest) with
    | some v => some v
    | Option.none => artSearch rest

/-- Translation of parse_art_interval, lifted to cells as the importer
calls it: falsy input gives None; string input is stripped and
searched; str() of a numeric or datetime value contains no letter s
or m, so such cells never match. -/
def parse_art_interval : Cell → Option Nat
  | .str s => if s = "" then Option.none else artSearch (trimChars s.data)
  | _ => Option.none

/-! ## Metric formulas (services/metrics.py) -/

/-- Translation of safe_div: None if either operand is absent or the
divisor is zero, else the exact quotient. -/
def safe_div (n d : Option Rat) : Option Rat :=
  match n, d with
  | some a, some b => if b = 0 then Option.none else some (a / b)
  | _, _ => Option.none

/-- Python x or 0 on an optional integer. -/
def pyOrZero (o : Option Int) : Int :=
  match o with
  | Option.none => 0
  | some n => n

/-- Translation of compute_unlock_ratio: safe_div of (unlock_count or
0) by (sold_count or 0). -/
def compute_unlock_ratio (unlock_count sold_count : Option Int) : Option Rat :=
  safe_div (some ((pyOrZero unlock_count : Int) : Rat)) (some ((pyOrZero sold_count : Int) : Rat))

/-! ## The relational store

Lists of rows stand for tables; the ORM first-match query is
List.find?; primary keys are handed out from per-table counters,
starting at 1 as the database sequences do. -/

/-- A teams row. -/
structure Team where
  id : Nat
  name : String
deriving DecidableEq

/-- A chatters row (the fields the importer touches). -/
structure Chatter where
  id : Nat
  name : String
  team_id : Option Nat
deriving DecidableEq

/-- A performance_daily row (the fields the importer touches). -/
structure PerformanceDaily where
  chatter_id : Nat
  team_id : Option Nat
  shift_date : YMD
  sales_amount : Option Rat
  sold_count : Option Int
  retention_count : Option Int
  unlock_count : Option Int
  unlock_ratio : Option Rat
  total_sales : Option Rat
  sph : Option Rat
  golden_ratio : Option Rat
  hinge_top_up : Option Rat
  tricks_tsf : Option Rat
  art_interval : Option Nat
deriving DecidableEq

/-- A shifts row (the fields the importer touches); shift_day and
remarks keep the raw cell value that was stored. -/
structure Shift where
  chatter_id : Nat
  team_id : Option Nat
  shift_date : YMD
  shift_day : Cell
  scheduled_hours : Option Rat
  actual_hours : Option Rat
  remarks : Cell
deriving DecidableEq

/-- The visible relational store. -/
structure Store where
  teams : List Team
  chatters : List Chatter
  perfs : List PerformanceDaily
  shifts : List Shift
  next_team_id : Nat
  next_chatter_id : Nat
deriving DecidableEq

/-- A store with no rows, sequences at 1. -/
def emptyStore : Store :=
  ⟨[], [], [], [], 1, 1⟩

/-- First teams row with the given name. -/
def findTeam (db : Store) (n : String) : Option Team :=
  db.teams.find? (fun t => t.name == n)

/-- First chatters row with the given name. -/
def findChatter (db : Store) (n : String) : Option Chatter :=
  db.chatters.find? (fun c => c.name == n)

/-- First performance row for a chatter and date. -/
def findPerf (db : Store) (cid : Nat) (dt : YMD) : Option PerformanceDaily :=
  db.perfs.find? (fun p => p.chatter_id == cid && p.shift_date == dt)

/-- First shifts row for a chatter and date. -/
def findShift (db : Store) (cid : Nat) (dt : YMD) : Option Shift :=
  db.shifts.find? (fun s => s.chatter_id == cid && s.shift_date == dt)

/-- Apply a function to the first list element satisfying a predicate,
modelling an ORM attribute update of the queried row. -/
def updateFirst (p : α → Bool) (f : α → α) : List α → List α
  | [] => []
  | a :: l => if p a then f a :: l else a :: updateFirst p f l

/-- Python truthiness of an optional foreign key (None and 0 are
falsy). -/
def teamTruthy : Option Nat → Bool
  | Option.none => false
  | some n => decide (n ≠ 0)

/-- Outcome of a single upsert, as the source reports it. -/
inductive UpsertStatus where
  | created
  | updated
  | skipped
deriving DecidableEq

/-- Translation of upsert_team: a falsy name yields no team; otherwise
find by exact name or append a fresh row. -/
def upsert_team (db : Store) (name : Option String) : Store × Option Nat :=
  match name with
  | Option.none => (db, Option.none)
  | some n =>
    if n = "" then (db, Option.none)
    else
      match findTeam db n with
      | some t => (db, some t.id)
      | Option.none =>
        ({ db with
            teams := db.teams ++ [⟨db.next_team_id, n⟩],
            next_team_id := db.next_team_id + 1 },
          some db.next_team_id)

/-- Translation of upsert_chatter: find by exact name or create; if
found and a (truthy) team id differing from the current one is
supplied, move the chatter to that team. -/
def upsert_chatter (db : Store) (name : String) (team_id : Option Nat) : Store × Nat :=
  match findChatter db name with
  | Option.none =>
    ({ db with
        chatters := db.chatters ++ [⟨db.next_chatter_id, name, team_id⟩],
        next_chatter_id := db.next_chatter_id + 1 },
      db.next_chatter_id)
  | some c =>
    if teamTruthy team_id = true ∧ c.team_id ≠ team_id then
      ({ db with
          chatters := updateFirst (fun c2 => c2.name == name)
            (fun c2 => { c2 with team_id := team_id }) db.chatters },
        c.id)
    else (db, c.id)

/-- The row dictionary handed to upsert_performance and upsert_shift,
restricted to the keys those functions read. -/
structure RowDict where
  day : Cell
  sales : Cell
  sold : Cell
  retention : Cell
  unlock : Cell
  total : Cell
  sph : Cell
  art : Cell
  golden_ratio : Cell
  hinge_top_up : Cell
  tricks_tsf : Cell
  remarks : Cell
  sched_hours : Cell
  actual_hours : Cell
  shift : Cell
deriving DecidableEq

/-- Translation of the unlock-ratio interpretation at the top of
upsert_performance: a fraction in [0,1] is kept, a value in (1,100]
is read as a percentage, anything else is discarded. -/
def unlock_ratio_of (raw : Cell) : Option Rat :=
  match to_float raw with
  | Option.none => Option.none
  | some urf =>
    if 1 < urf ∧ urf ≤ 100 then some (urf / 100)
    else if 0 ≤ urf ∧ urf ≤ 1 then some urf
    else Option.none

/-- The parsed field values upsert_performance derives from a row. -/
structure PerfPayload where
  sales_amount : Option Rat
  sold_count : Option Int
  retention_count : Option Int
  unlock_count : Option Int
  unlock_ratio : Option Rat
  total_sales : Option Rat
  sph : Option Rat
  golden_ratio : Option Rat
  hinge_top_up : Option Rat
  tricks_tsf : Option Rat
deriving DecidableEq

/-- The payload dictionary built by upsert_performance. -/
def payloadOf (row : RowDict) : PerfPayload :=
  { sales_amount := to_float row.sales
    sold_count := to_int row.sold
    retention_count := to_int row.retention
    unlock_count := to_int row.unlock
    unlock_ratio := unlock_ratio_of row.unlock
    total_sales := to_float row.total
    sph := to_float row.sph
    golden_ratio := to_float row.golden_ratio
    hinge_top_up := to_float row.hinge_top_up
    tricks_tsf := to_float row.tricks_tsf }

/-- Fill-if-null merge of one field: a supplied value lands only on a
currently null field; the boolean reports whether anything changed. -/
def fillOpt (cur v : Option α) : Option α × Bool :=
  match v with
  | Option.none => (cur, false)
  | some x =>
    match cur with
    | Option.none => (some x, true)
    | some y => (some y, false)

/-- The merge upsert_performance applies to an existing row: team id
is filled when the current one is None or 0, every payload field and
the ART interval only when currently null. -/
def fillPerf (team_id : Option Nat) (pl : PerfPayload) (art : Option Nat)
    (p : PerformanceDaily) : PerformanceDaily × Bool :=
  let t : Option Nat × Bool :=
    if teamTruthy team_id = true ∧ (p.team_id = Option.none ∨ p.team_id = some 0) then
      (team_id, true)
    else (p.team_id, false)
  let f1 := fillOpt p.sales_amount pl.sales_amount
  let f2 := fillOpt p.sold_count pl.sold_count
  let f3 := fillOpt p.retention_count pl.retention_count
  let f4 := fillOpt p.unlock_count pl.unlock_count
  let f5 := fillOpt p.unlock_ratio pl.unlock_ratio
  let f6 := fillOpt p.total_sales pl.total_sales
  let f7 := fillOpt p.sph pl.sph
  let f8 := fillOpt p.golden_ratio pl.golden_ratio
  let f9 := fillOpt p.hinge_top_up pl.hinge_top_up
  let f10 := fillOpt p.tricks_tsf pl.tricks_tsf
  let fa := fillOpt p.art_interval art
  ({ p with
      team_id := t.1
      sales_amount := f1.1
      sold_count := f2.1
      retention_count := f3.1
      unlock_count := f4.1
      unlock_ratio := f5.1
      total_sales := f6.1
      sph := f7.1
      golden_ratio := f8.1
      hinge_top_up := f9.1
      tricks_tsf := f10.1
      art_interval := fa.1 },
    t.2 || f1.2 || f2.2 || f3.2 || f4.2 || f5.2 || f6.2 || f7.2 || f8.2 || f9.2 || f10.2 || fa.2)

/-- Translation of upsert_performance. -/
def upsert_performance (db : Store) (chatter_id : Nat) (team_id : Option Nat)
    (dt : YMD) (row : RowDict) : Store × UpsertStatus :=
  let pl := payloadOf row
  let art := parse_art_interval row.art
  match findPerf db chatter_id dt with
  | some existing =>
    let r := fillPerf team_id pl art existing
    ({ db with
        perfs := updateFirst (fun p => p.chatter_id == chatter_id && p.shift_date == dt)
          (fun p => (fillPerf team_id pl art p).1) db.perfs },
      if r.2 then .updated else .skipped)
  | Option.none =>
    ({ db with
        perfs := db.perfs ++
          [{ chatter_id := chatter_id
             team_id := team_id
             shift_date := dt
             sales_amount := pl.sales_amount
             sold_count := pl.sold_count
             retention_count := pl.retention_count
             unlock_count := pl.unlock_count
             unlock_ratio := pl.unlock_ratio
             total_sales := pl.total_sales
             sph := pl.sph
             golden_ratio := pl.golden_ratio
             hinge_top_up := pl.hinge_top_up
             tricks_tsf := pl.tricks_tsf
             art_interval := art }] },
      .created)

/-- The shift label upsert_shift derives: Day, else Shift, normalized
to Cell.none when falsy (Python: (row.get(Day) or row.get(Shift)) or
None). -/
def labelOf (row : RowDict) : Cell :=
  let sl0 := if row.day.truthy then row.day else row.shift
  if sl0.truthy then sl0 else Cell.none

/-- The remarks value upsert_shift derives (row.get(Remarks) or
None). -/
def remarksOf (row : RowDict) : Cell :=
  if row.remarks.truthy then row.remarks else Cell.none

/-- Test for existing.remarks is None or existing.remarks.strip() ==
empty; non-string cells cannot come back from a text column, they are
modelled as non-blank. -/
def remarksBlank : Cell → Bool
  | Cell.none => true
  | Cell.str s => decide (trimChars s.data = [])
  | _ => false

/-- The merge upsert_shift applies to an existing row. -/
def fillShift (team_id : Option Nat) (scheduled actual : Option Rat)
    (remarks shift_label : Cell) (s : Shift) : Shift × Bool :=
  let t : Option Nat × Bool :=
    if teamTruthy team_id = true ∧ (s.team_id = Option.none ∨ s.team_id = some 0) then
      (team_id, true)
    else (s.team_id, false)
  let sc := fillOpt s.scheduled_hours scheduled
  let ac := fillOpt s.actual_hours actual
  let rm : Cell × Bool :=
    if remarks ≠ Cell.none ∧ remarksBlank s.remarks = true then (remarks, true)
    else (s.remarks, false)
  let sd : Cell × Bool :=
    if shift_label ≠ Cell.none ∧ s.shift_day.truthy = false then (shift_label, true)
    else (s.shift_day, false)
  ({ s with
      team_id := t.1
      scheduled_hours := sc.1
      actual_hours := ac.1
      remarks := rm.1
      shift_day := sd.1 },
    t.2 || sc.2 || ac.2 || rm.2 || sd.2)

/-- Translation of upsert_shift. -/
def upsert_shift (db : Store) (chatter_id : Nat) (team_id : Option Nat)
    (dt : YMD) (row : RowDict) : Store × UpsertStatus :=
  let scheduled := to_float row.sched_hours
  let actual := to_float row.actual_hours
  let remarks := remarksOf row
  let shift_label := labelOf row
  if scheduled = Option.none ∧ actual = Option.none ∧ remarks = Cell.none ∧
      shift_label = Cell.none then
    (db, .skipped)
  else
    match findShift db chatter_id dt with
    | some existing =>
      let r := fillShift team_id scheduled actual remarks shift_label existing
      ({ db with
          shifts := updateFirst (fun s => s.chatter_id == chatter_id && s.shift_date == dt)
            (fun s => (fillShift team_id scheduled actual remarks shift_label s).1) db.shifts },
        if r.2 then .updated else .skipped)
    | Option.none =>
      ({ db with
          shifts := db.shifts ++
            [{ chatter_id := chatter_id
               team_id := team_id
               shift_date := dt
               shift_day := shift_label
               scheduled_hours := scheduled
               actual_hours := actual
               remarks := remarks }] },
        .created)

/-! ## The import loops

All four row loops (legacy and simplified layout, Excel and CSV
source) share the same body once the per-layout preprocessing has
produced the chatter name, optional team name, parsed date, row
dictionary and shift-attempted flag; the preprocessing is modelled
per importer, the body once. -/

/-- One entry of the skipped-row diagnostics list; the date is kept
structurally (the source stores dt.isoformat()). -/
structure DupSample where
  row : Nat
  chatter : String
  date : YMD
  details : String
deriving DecidableEq

/-- The comma-joined reason list of a diagnostics entry. -/
def dupDetails (pSkip sSkip : Bool) : String :=
  if pSkip && sSkip then "performance already imported, shift already imported"
  else if pSkip then "performance already imported"
  else if sSkip then "shift already imported"
  else ""

/-- Loop state of one import call: the staged store, the running
counters, the full diagnostics list and the enumerate row index. -/
structure ImportState where
  store : Store
  teams_created : Nat
  chatters_created : Nat
  perf_records : Nat
  perf_updates : Nat
  shift_records : Nat
  shift_updates : Nat
  dups : List DupSample
  idx : Nat
deriving DecidableEq

/-- Loop state at the top of an import call; data rows are enumerated
from 2 (row 1 is the header). -/
def initState (db : Store) : ImportState :=
  ⟨db, 0, 0, 0, 0, 0, 0, [], 2⟩

/-- The statistics dictionary an import call returns. -/
structure ImportStats where
  teams_created : Nat
  chatters_created : Nat
  performance_records : Nat
  performance_updates : Nat
  shift_records : Nat
  shift_updates : Nat
  rows_skipped : Nat
  skipped_samples : List DupSample
deriving DecidableEq

/-- Read the returned statistics off the final loop state
(rows_skipped is the length of the full diagnostics list, the
samples are capped at 25). -/
def statsOf (st : ImportState) : ImportStats :=
  ⟨st.teams_created, st.chatters_created, st.perf_records, st.perf_updates,
    st.shift_records, st.shift_updates, st.dups.length, st.dups.take 25⟩

/-- A fully preprocessed data row, ready for the shared loop body. -/
structure PRow where
  team_name : Option String
  chatter_name : String
  dt : YMD
  row : RowDict
  attempted : Bool
deriving DecidableEq

/-- The shared loop body: track creations by before/after table
counts as the source does, upsert performance always and shift only
when attempted, and append a diagnostics entry when the performance
step or an attempted shift step was skipped. -/
def coreRow (st : ImportState) (pr : PRow) : ImportState :=
  let db0 := st.store
  let tRes := upsert_team db0 pr.team_name
  let db1 := tRes.1
  let team_id := tRes.2
  let tInc : Nat := if db0.teams.length < db1.teams.length then 1 else 0
  let cRes := upsert_chatter db1 pr.chatter_name team_id
  let db2 := cRes.1
  let chatter_id := cRes.2
  let cInc : Nat := if db1.chatters.length < db2.chatters.length then 1 else 0
  let pRes := upsert_performance db2 chatter_id team_id pr.dt pr.row
  let db3 := pRes.1
  let perf_status := pRes.2
  let sRes := if pr.attempted then upsert_shift db3 chatter_id team_id pr.dt pr.row
    else (db3, UpsertStatus.skipped)
  let db4 := sRes.1
  let shift_status := sRes.2
  let pInc : Nat × Nat :=
    match perf_status with
    | .created => (1, 0)
    | .updated => (0, 1)
    | .skipped => (0, 0)
  let sInc : Nat × Nat :=
    match shift_status with
    | .created => (1, 0)
    | .updated => (0, 1)
    | .skipped => (0, 0)
  let pSkip := perf_status = UpsertStatus.skipped
  let sSkip := pr.attempted = true ∧ shift_status = UpsertStatus.skipped
  let dupApp : List DupSample :=
    if pSkip ∨ sSkip then
      [⟨st.idx, pr.chatter_name, pr.dt, dupDetails (decide pSkip) (decide sSkip)⟩]
    else []
  { store := db4
    teams_created := st.teams_created + tInc
    chatters_created := st.chatters_created + cInc
    perf_records := st.perf_records + pInc.1
    perf_updates := st.perf_updates + pInc.2
    shift_records := st.shift_records + sInc.1
    shift_updates := st.shift_updates + sInc.2
    dups := st.dups ++ dupApp
    idx := st.idx + 1 }

/-- One loop iteration over an optionally skipped row: a row that the
preprocessing rejected (blank chatter or date, unparseable date in a
CSV) only advances the enumerate index. -/
def masterStep (st : ImportState) (pr? : Option PRow) : ImportState :=
  match pr? with
  | Option.none => { st with idx := st.idx + 1 }
  | some pr => coreRow st pr

/-- Run the shared loop over preprocessed rows. -/
def runCore (db : Store) (prs : List (Option PRow)) : ImportState :=
  prs.foldl masterStep (initState db)

/-! ### Legacy CSV importer -/

/-- A data row of a legacy-layout CSV file: DictReader yields every
column as a string. -/
structure CsvLegacyRow where
  team_name : String
  chatter_name : String
  sched_hours : String
  actual_hours : String
  date : String
  day : String
  sales : String
  sold : String
  retention : String
  unlock : String
  total : String
  sph : String
  art : String
  golden_ratio : String
  hinge_top_up : String
  tricks_tsf : String
  remarks : String
deriving DecidableEq

/-- The row dictionary a legacy CSV row presents to the upserts (the
legacy dictionary has no Shift key). -/
def csvLegacyDict (r : CsvLegacyRow) : RowDict :=
  { day := .str r.day
    sales := .str r.sales
    sold := .str r.sold
    retention := .str r.retention
    unlock := .str r.unlock
    total := .str r.total
    sph := .str r.sph
    art := .str r.art
    golden_ratio := .str r.golden_ratio
    hinge_top_up := .str r.hinge_top_up
    tricks_tsf := .str r.tricks_tsf
    remarks := .str r.remarks
    sched_hours := .str r.sched_hours
    actual_hours := .str r.actual_hours
    shift := Cell.none }

/-- Preprocessing of a legacy CSV data row: skip on blank chatter or
date, skip on unparseable date (the except path), otherwise hand the
raw strings through.  The legacy CSV importer does not strip
names. -/
def prepCsvLegacy (r : CsvLegacyRow) : Option PRow :=
  if r.chatter_name = "" ∨ r.date = "" then Option.none
  else
    match parse_date_flexible r.date with
    | Option.none => Option.none
    | some dt =>
      some
        { team_name := some r.team_name
          chatter_name := r.chatter_name
          dt := dt
          row := csvLegacyDict r
          attempted :=
            (to_float (.str r.sched_hours)).isSome || (to_float (.str r.actual_hours)).isSome }

/-- Translation of _import_csv_legacy, returning the committed store
and the statistics (this importer cannot raise on a data row). -/
def importCsvLegacy (db : Store) (rows : List CsvLegacyRow) : Store × ImportStats :=
  let st := runCore db (rows.map prepCsvLegacy)
  (st.store, statsOf st)

/-- A small concrete legacy CSV file used to exercise the import
theorems: one fully populated row and one row with blank hours. -/
def c1File : List CsvLegacyRow :=
  [{ team_name := "Alpha"
     chatter_name := "Ann"
     sched_hours := "8"
     actual_hours := "7.5"
     date := "2025-01-31"
     day := "Fri"
     sales := "100"
     sold := "4"
     retention := "2"
     unlock := "50"
     total := "100"
     sph := "13"
     art := "3m 42s"
     golden_ratio := "1.5"
     hinge_top_up := "0"
     tricks_tsf := "1"
     remarks := "ok" },
   { team_name := ""
     chatter_name := "Bob"
     sched_hours := ""
     actual_hours := "6"
     date := "01/30/2025"
     day := ""
     sales := "80"
     sold := ""
     retention := ""
     unlock := ""
     total := "80"
     sph := ""
     art := ""
     golden_ratio := ""
     hinge_top_up := ""
     tricks_tsf := ""
     remarks := "" }]

/-! ### Legacy Excel importer -/

/-- A data row of the legacy Excel sheet: openpyxl cell values. -/
structure XlLegacyRow where
  team_name : Cell
  chatter_name : Cell
  sched_hours : Cell
  actual_hours : Cell
  date : Cell
  day : Cell
  sales : Cell
  sold : Cell
  retention : Cell
  unlock : Cell
  total : Cell
  sph : Cell
  art : Cell
  golden_ratio : Cell
  hinge_top_up : Cell
  tricks_tsf : Cell
  remarks : Cell
deriving DecidableEq

/-- The name normalization of the legacy Excel importer: str(x).strip()
when the cell is neither None nor the empty string, else None. -/
def strippedName (c : Cell) : Option String :=
  match c with
  | Cell.none => Option.none
  | Cell.str s => if s = "" then Option.none else some (String.mk (trimChars s.data))
  | c => some (String.mk (trimChars (pyStr c).data))

/-- The row dictionary a legacy Excel row presents to the upserts. -/
def xlLegacyDict (r : XlLegacyRow) : RowDict :=
  { day := r.day
    sales := r.sales
    sold := r.sold
    retention := r.retention
    unlock := r.unlock
    total := r.total
    sph := r.sph
    art := r.art
    golden_ratio := r.golden_ratio
    hinge_top_up := r.hinge_top_up
    tricks_tsf := r.tricks_tsf
    remarks := r.remarks
    sched_hours := r.sched_hours
    actual_hours := r.actual_hours
    shift := Cell.none }

/-- Preprocessing of a legacy Excel data row.  Unlike the CSV path,
the date parse is not inside a try block: a non-date cell whose
string rendering does not parse raises and aborts the import. -/
def prepXlLegacy (r : XlLegacyRow) : Except String (Option PRow) :=
  let team_name := strippedName r.team_name
  let chatter_name := strippedName r.chatter_name
  if chatter_name = Option.none ∨ chatter_name = some "" ∨ r.date.truthy = false then
    Except.ok Option.none
  else
    let dt? : Except String YMD :=
      match r.date with
      | Cell.date d => Except.ok d
      | c =>
        match parse_date_flexible (pyStr c) with
        | some d => Except.ok d
        | Option.none => Except.error (dateErrMsg (pyStr c))
    dt?.map (fun dt =>
      some
        { team_name := team_name
          chatter_name := (chatter_name.getD "")
          dt := dt
          row := xlLegacyDict r
          attempted :=
            (to_float r.sched_hours).isSome || (to_float r.actual_hours).isSome })

/-- Translation of _import_excel_legacy: the loop runs in the staged
session; only a completed loop commits, so on an exception the
visible store is the one the call started from. -/
def importXlLegacy (db : Store) (rows : List XlLegacyRow) : Store × Except String ImportStats :=
  match rows.foldlM (fun st r => (prepXlLegacy r).map (masterStep st)) (initState db) with
  | Except.ok st => (st.store, Except.ok (statsOf st))
  | Except.error e => (db, Except.error e)

/-! ### Simplified-layout importers -/

/-- Wrap an optional parsed number back into the cell that the
simplified importers place in the row dictionary. -/
def cellOfOpt : Option Rat → Cell
  | Option.none => Cell.none
  | some q => Cell.num q

/-- Wrap an optional label string into a cell. -/
def cellOfStrOpt : Option String → Cell
  | Option.none => Cell.none
  | some s => Cell.str s

/-- The row dictionary built by the simplified importers (note Sales
and Total both carry the derived sales amount, Day and Shift both
carry the shift label, Unlock carries the UR value). -/
def newDict (sales_amount : Option Rat) (ur sphv grv worked : Option Rat)
    (art : Cell) (shift_label : Option String) : RowDict :=
  { day := cellOfStrOpt shift_label
    sales := cellOfOpt sales_amount
    sold := Cell.none
    retention := Cell.none
    unlock := cellOfOpt ur
    total := cellOfOpt sales_amount
    sph := cellOfOpt sphv
    art := art
    golden_ratio := cellOfOpt grv
    hinge_top_up := Cell.none
    tricks_tsf := Cell.none
    remarks := Cell.none
    sched_hours := Cell.none
    actual_hours := cellOfOpt worked
    shift := cellOfStrOpt shift_label }

/-- The derived sales amount of the simplified layout: the provided
total, else worked hours times SPH when both are present. -/
def newSalesAmount (total worked sphv : Option Rat) : Option Rat :=
  match total with
  | some v => some v
  | Option.none =>
    match worked, sphv with
    | some w, some s2 => some (w * s2)
    | _, _ => Option.none

/-- A data row of a simplified-layout CSV file. -/
structure CsvNewRow where
  chatter : String
  total_sales : String
  start_date : String
  end_date : String
  worked_hrs : String
  sph : String
  art : String
  gr : String
  ur : String
  shift : String
deriving DecidableEq

/-- Preprocessing of a simplified CSV data row: names and labels are
stripped, the date must parse strictly as MM/DD/YYYY (the except path
skips the row on failure). -/
def prepCsvNew (r : CsvNewRow) : Option PRow :=
  let chatter_name : Option String :=
    let t := String.mk (trimChars r.chatter.data)
    if t = "" then Option.none else some t
  let total_sales := to_float (.str r.total_sales)
  let worked_hrs := to_float (.str r.worked_hrs)
  let sphv := to_float (.str r.sph)
  let grv := to_float (.str r.gr)
  let urv := to_float (.str r.ur)
  let shift_label : Option String :=
    let t := String.mk (trimChars r.shift.data)
    if t = "" then Option.none else some t
  if chatter_name = Option.none ∨ r.start_date = "" then Option.none
  else
    match parse_mmddyyyy_only r.start_date with
    | Option.none => Option.none
    | some dt =>
      let sales_amount := newSalesAmount total_sales worked_hrs sphv
      some
        { team_name := Option.none
          chatter_name := chatter_name.getD ""
          dt := dt
          row := newDict sales_amount urv sphv grv worked_hrs (.str r.art) shift_label
          attempted := worked_hrs.isSome || shift_label.isSome }

/-- Translation of _import_csv_new; the returned statistics hard-code
teams_created to 0 as the source does. -/
def importCsvNew (db : Store) (rows : List CsvNewRow) : Store × ImportStats :=
  let st := runCore db (rows.map prepCsvNew)
  (st.store, { statsOf st with teams_created := 0 })

/-- A data row of the simplified Excel sheet. -/
structure XlNewRow where
  chatter : Cell
  total_sales : Cell
  start_date : Cell
  end_date : Cell
  worked_hrs : Cell
  sph : Cell
  art : Cell
  gr : Cell
  ur : Cell
  shift : Cell
deriving DecidableEq

/-- The shift label of the simplified Excel importer:
(val.get(Shift) or empty).strip() or None; a truthy non-string cell
reaches .strip() on a non-string and raises AttributeError. -/
def xlNewLabel (c : Cell) : Except String (Option String) :=
  if c.truthy = false then Except.ok Option.none
  else
    match c with
    | Cell.str s =>
      let t := String.mk (trimChars s.data)
      Except.ok (if t = "" then Option.none else some t)
    | _ => Except.error "AttributeError: strip"

/-- Preprocessing of a simplified Excel data row: the label extraction
happens before the skip checks (so it can raise even on a row that
would be skipped); a date cell passes through, a string date must
parse strictly as MM/DD/YYYY or the import aborts. -/
def prepXlNew (r : XlNewRow) : Except String (Option PRow) :=
  (xlNewLabel r.shift).bind (fun shift_label =>
    let chatter_name := strippedName r.chatter
    let total_sales := to_float r.total_sales
    let worked_hrs := to_float r.worked_hrs
    let sphv := to_float r.sph
    let grv := to_float r.gr
    let urv := to_float r.ur
    if chatter_name = Option.none ∨ chatter_name = some "" ∨ r.start_date.truthy = false then
      Except.ok Option.none
    else
      let dt? : Except String YMD :=
        match r.start_date with
        | Cell.date d => Except.ok d
        | c =>
          match parse_mmddyyyy_only (pyStr c) with
          | some d => Except.ok d
          | Option.none => Except.error ("time data does not match format m/d/Y: " ++ pyStr c)
      dt?.map (fun dt =>
        let sales_amount := newSalesAmount total_sales worked_hrs sphv
        some
          { team_name := Option.none
            chatter_name := chatter_name.getD ""
            dt := dt
            row := newDict sales_amount urv sphv grv worked_hrs r.art shift_label
            attempted := worked_hrs.isSome || shift_label.isSome }))

/-- Translation of _import_excel_new, committing only on success; the
statistics hard-code teams_created to 0 as the source does. -/
def importXlNew (db : Store) (rows : List XlNewRow) : Store × Except String ImportStats :=
  match rows.foldlM (fun st r => (prepXlNew r).map (masterStep st)) (initState db) with
  | Except.ok st => (st.store, Except.ok { statsOf st with teams_created := 0 })
  | Except.error e => (db, Except.error e)

/-! ## Dashboard snapshot builder (routers/dashboard_metrics.py)

The SQL aggregation that produces one computed row per chatter is
taken as the input list; the embedding covers everything from the
initial total-sales ranking through the override-application loop
(which raises as soon as an override is chosen, because the snapshot
schema declares no override_id field), the re-sorts and the appended
override-only rows.  Dates are modelled as day numbers. -/

/-- A DashboardMetricSnapshot row: exactly the fields
schemas.DashboardMetricSnapshot declares.  The schema declares no
override_id or overridden field, so a pydantic model of this shape
raises ValueError on an attempt to assign either one. -/
structure Snap where
  chatter_name : String
  total_sales : Rat
  worked_hours : Rat
  start_date : Option Int
  end_date : Option Int
  sph : Rat
  art : Option String
  gr : Rat
  ur : Rat
  ranking : Int
  shift : Option String
deriving DecidableEq

/-- A DashboardMetric override row. -/
structure OverrideRow where
  id : Int
  chatter_name : String
  total_sales : Option Rat
  worked_hours : Option Rat
  start_date : Option Int
  end_date : Option Int
  sph : Option Rat
  art : Option String
  gr : Option Rat
  ur : Option Rat
  ranking : Option Int
  shift : Option String
deriving DecidableEq

/-- Python x or y on optional dates (a date object is always
truthy). -/
def pyOrDate (a b : Option Int) : Option Int :=
  match a with
  | some d => some d
  | Option.none => b

/-- Translation of _ranges_overlap. -/
def rangesOverlap (row_start row_end o_start o_end : Option Int) : Bool :=
  if row_start = Option.none ∧ row_end = Option.none then true
  else
    let rs := pyOrDate row_start row_end
    let re := pyOrDate row_end row_start
    if o_start = Option.none ∧ o_end = Option.none then true
    else
      let os := pyOrDate o_start o_end
      let oe := pyOrDate o_end o_start
      if rs ≠ Option.none ∧ oe ≠ Option.none ∧
          decide ((oe.getD 0) < (rs.getD 0)) = true then false
      else if re ≠ Option.none ∧ os ≠ Option.none ∧
          decide ((re.getD 0) < (os.getD 0)) = true then false
      else true

/-- The window filter of the override queries: end_date missing or at
least the window start, and start_date missing or at most the window
end. -/
def windowOk (start_ end_ : Option Int) (o : OverrideRow) : Bool :=
  (match start_ with
    | Option.none => true
    | some s =>
      match o.end_date with
      | Option.none => true
      | some e => decide (s ≤ e)) &&
  (match end_ with
    | Option.none => true
    | some e =>
      match o.start_date with
      | Option.none => true
      | some os => decide (os ≤ e))

/-- The chosen override of a computed row: first fetched override with
the same chatter name whose range overlaps the row range (the
overrides_by_name lookup preserves query order). -/
def firstMatch (fetched : List OverrideRow) (m : Snap) : Option OverrideRow :=
  (fetched.filter (fun o => o.chatter_name == m.chatter_name)).find?
    (fun o => rangesOverlap m.start_date m.end_date o.start_date o.end_date)

/-- Python float(x or 0) on an optional number. -/
def orZeroR (o : Option Rat) : Rat :=
  match o with
  | Option.none => 0
  | some q => q

/-- The message of the ValueError pydantic raises when the override
loop reaches m.override_id = int(chosen.id): DashboardMetricSnapshot
declares no such field, so the assignment aborts the whole snapshot
computation.  The earlier assignments of that loop iteration (lines
180 to 189) target declared fields and succeed, but the exception
escapes before any snapshot row is returned, so their effect is never
observable. -/
def valueErrorNoField : String :=
  "ValueError: DashboardMetricSnapshot object has no field override_id"

/-- Descending total-sales order (the key of the first sort); Python
sort is stable and insertionSort with a total preorder is the same
stable sort. -/
def salesGe (a b : Snap) : Prop :=
  b.total_sales ≤ a.total_sales

instance : DecidableRel salesGe := fun a b => by
  unfold salesGe; infer_instance

/-- The first ranking pass: stable-sort by total sales descending. -/
def sortSalesDesc (l : List Snap) : List Snap :=
  l.insertionSort salesGe

/-- Assign rankings i, i+1, ... positionally (enumerate from i). -/
def assignRanksFrom : Int → List Snap → List Snap
  | _, [] => []
  | i, m :: l => { m with ranking := i } :: assignRanksFrom (i + 1) l

/-- Assign rankings 1..N positionally. -/
def assignRanks (l : List Snap) : List Snap :=
  assignRanksFrom 1 l

/-- The sort key item.ranking if item.ranking else +infinity: a zero
(falsy) ranking counts as missing. -/
def rankKey (m : Snap) : Option Int :=
  if m.ranking = 0 then Option.none else some m.ranking

/-- Strict order on optional rankings with missing as plus
infinity. -/
def rkLt : Option Int → Option Int → Prop
  | some a, some b => a < b
  | some _, Option.none => True
  | Option.none, _ => False

instance : DecidableRel rkLt := fun a b => by
  cases a <;> cases b <;> simp [rkLt] <;> infer_instance

/-- The lexicographic key order of the re-sorts: ranking ascending
with missing last, ties by total sales descending. -/
def rankLe (a b : Snap) : Prop :=
  rkLt (rankKey a) (rankKey b) ∨ (rankKey a = rankKey b ∧ b.total_sales ≤ a.total_sales)

instance : DecidableRel rankLe := fun a b => by
  unfold rankLe; infer_instance

/-- The re-sort of lines 195 and 234: stable sort by the ranking
key. -/
def sortRank (l : List Snap) : List Snap :=
  l.insertionSort rankLe

/-- The rank normalization of lines 197 to 198 and 235 to 237: give
every row whose ranking is still falsy its 1-based position. -/
def fillRanksFrom : Int → List Snap → List Snap
  | _, [] => []
  | i, m :: l =>
    { m with ranking := if m.ranking = 0 then i else m.ranking } :: fillRanksFrom (i + 1) l

/-- A pure override row turned into a snapshot row (the
override-only rows appended in step 3).  The constructor call also
passes override_id and overridden keyword arguments, but the schema
declares neither field and pydantic silently drops unknown
constructor keywords, so the appended row carries only the declared
fields. -/
def overrideOnlyRow (o : OverrideRow) : Snap :=
  { chatter_name := o.chatter_name
    total_sales := orZeroR o.total_sales
    worked_hours := orZeroR o.worked_hours
    start_date := o.start_date
    end_date := o.end_date
    sph := orZeroR o.sph
    art := o.art
    gr := orZeroR o.gr
    ur := orZeroR o.ur
    ranking := match o.ranking with | some r => r | Option.none => 0
    shift := o.shift }

/-- The override list the override-application loop works from: the
fetched overrides, restricted to the computed chatter names when any
exist and to the requested window. -/
def fetchedOv (names : List String) (ovs : List OverrideRow)
    (start_ end_ : Option Int) : List OverrideRow :=
  (if names.isEmpty then ovs
    else ovs.filter (fun o => names.contains o.chatter_name)).filter (windowOk start_ end_)

/-- Translation of _compute_dashboard_snapshot from the point where
the computed rows are in hand: rank by sales, fetch the overlapping
overrides, and walk the computed rows looking for a chosen override.
The first computed row with a chosen override hits the
m.override_id assignment, which raises ValueError (the schema has no
such field), so the whole call fails.  When no computed row has a
chosen override the loop leaves every row untouched and no override
id is marked applied; the pipeline then re-sorts and normalizes,
appends the override-only rows for chatters without computed data,
and sorts and normalizes once more. -/
def snapshotPipeline (metrics : List Snap) (ovs : List OverrideRow)
    (start_ end_ : Option Int) : Except String (List Snap) :=
  let l1 := assignRanks (sortSalesDesc metrics)
  let names := l1.map (fun m => m.chatter_name)
  let fetched := fetchedOv names ovs start_ end_
  if l1.any (fun m => (firstMatch fetched m).isSome) then
    Except.error valueErrorNoField
  else
    let l3 := fillRanksFrom 1 (sortRank l1)
    let extras :=
      (ovs.filter (windowOk start_ end_)).filter
        (fun o => if names.isEmpty then true else decide (o.chatter_name ∉ names))
    let l4 := l3 ++ extras.map overrideOnlyRow
    Except.ok (fillRanksFrom 1 (sortRank l4))

/-! ## Invariants used to reason about repeated imports -/

/-- The team id upsert_team reports for a given optional name against
a store in which the team already exists. -/
def teamIdLookup (db : Store) (tn : Option String) : Option Nat :=
  match tn with
  | Option.none => Option.none
  | some n => if n = "" then Option.none else (findTeam db n).map (fun t => t.id)

/-- A team reference that the fill branches treat as set (neither
None nor 0). -/
def goodTeam (o : Option Nat) : Prop :=
  o ≠ Option.none ∧ o ≠ some 0

/-- Every field the payload supplies is populated on the row, and a
truthy team reference implies the row's team is set: the condition
under which the fill merge has nothing to do. -/
structure PerfCovers (pl : PerfPayload) (art : Option Nat) (tid : Option Nat)
    (p : PerformanceDaily) : Prop where
  sales : pl.sales_amount ≠ Option.none → p.sales_amount ≠ Option.none
  sold : pl.sold_count ≠ Option.none → p.sold_count ≠ Option.none
  retention : pl.retention_count ≠ Option.none → p.retention_count ≠ Option.none
  unlock_c : pl.unlock_count ≠ Option.none → p.unlock_count ≠ Option.none
  unlock_r : pl.unlock_ratio ≠ Option.none → p.unlock_ratio ≠ Option.none
  total : pl.total_sales ≠ Option.none → p.total_sales ≠ Option.none
  sph_c : pl.sph ≠ Option.none → p.sph ≠ Option.none
  golden : pl.golden_ratio ≠ Option.none → p.golden_ratio ≠ Option.none
  hinge : pl.hinge_top_up ≠ Option.none → p.hinge_top_up ≠ Option.none
  tricks : pl.tricks_tsf ≠ Option.none → p.tricks_tsf ≠ Option.none
  art_c : art ≠ Option.none → p.art_interval ≠ Option.none
  team : teamTruthy tid = true → goodTeam p.team_id

/-- The analogous saturation condition for a shifts row (remarks are
excluded: the remarks branch can re-fire on whitespace remarks, which
only re-updates, never creates). -/
structure ShiftCovers (scheduled actual : Option Rat) (label : Cell) (tid : Option Nat)
    (s : Shift) : Prop where
  sched : scheduled ≠ Option.none → s.scheduled_hours ≠ Option.none
  act : actual ≠ Option.none → s.actual_hours ≠ Option.none
  lab : label ≠ Cell.none → s.shift_day.truthy = true
  team : teamTruthy tid = true → goodTeam s.team_id

/-- Monotone evolution of one performance row: populated fields stay
populated and a set team reference stays set. -/
structure PerfLe (p q : PerformanceDaily) : Prop where
  sales : p.sales_amount ≠ Option.none → q.sales_amount ≠ Option.none
  sold : p.sold_count ≠ Option.none → q.sold_count ≠ Option.none
  retention : p.retention_count ≠ Option.none → q.retention_count ≠ Option.none
  unlock_c : p.unlock_count ≠ Option.none → q.unlock_count ≠ Option.none
  unlock_r : p.unlock_ratio ≠ Option.none → q.unlock_ratio ≠ Option.none
  total : p.total_sales ≠ Option.none → q.total_sales ≠ Option.none
  sph_c : p.sph ≠ Option.none → q.sph ≠ Option.none
  golden : p.golden_ratio ≠ Option.none → q.golden_ratio ≠ Option.none
  hinge : p.hinge_top_up ≠ Option.none → q.hinge_top_up ≠ Option.none
  tricks : p.tricks_tsf ≠ Option.none → q.tricks_tsf ≠ Option.none
  art_c : p.art_interval ≠ Option.none → q.art_interval ≠ Option.none
  team : goodTeam p.team_id → goodTeam q.team_id

/-- Monotone evolution of one shifts row. -/
structure ShiftLe (s t : Shift) : Prop where
  sched : s.scheduled_hours ≠ Option.none → t.scheduled_hours ≠ Option.none
  act : s.actual_hours ≠ Option.none → t.actual_hours ≠ Option.none
  lab : s.shift_day.truthy = true → t.shift_day.truthy = true
  team : goodTeam s.team_id → goodTeam t.team_id

/-- Monotone evolution of a store under import steps: rows found by
the upsert queries keep being found (chatters with their id) and
evolve monotonically. -/
structure StoreMono (db db2 : Store) : Prop where
  team : ∀ n t, findTeam db n = some t → findTeam db2 n = some t
  chatter : ∀ n c, findChatter db n = some c →
    ∃ c2, findChatter db2 n = some c2 ∧ c2.id = c.id
  perf : ∀ cid dt p, findPerf db cid dt = some p →
    ∃ q, findPerf db2 cid dt = some q ∧ PerfLe p q
  shift : ∀ cid dt s, findShift db cid dt = some s →
    ∃ t2, findShift db2 cid dt = some t2 ∧ ShiftLe s t2

/-- What one processed row leaves behind in the store: its team and
chatter exist, its performance row exists and is saturated for the
row's own payload, and, when a shift upsert was attempted, its shift
row exists and is saturated. -/
structure RowSat (db : Store) (pr : PRow) : Prop where
  team_ok : ∀ n, pr.team_name = some n → n ≠ "" → ∃ t, findTeam db n = some t
  chatter_ok : ∃ c, findChatter db pr.chatter_name = some c
  perf_ok : ∀ c, findChatter db pr.chatter_name = some c →
    ∃ p, findPerf db c.id pr.dt = some p ∧
      PerfCovers (payloadOf pr.row) (parse_art_interval pr.row.art)
        (teamIdLookup db pr.team_name) p
  shift_ok : pr.attempted = true → ∀ c, findChatter db pr.chatter_name = some c →
    ∃ s, findShift db c.id pr.dt = some s ∧
      ShiftCovers (to_float pr.row.sched_hours) (to_float pr.row.actual_hours)
        (labelOf pr.row) (teamIdLookup db pr.team_name) s

/-- A preprocessed row on which an attempted shift upsert cannot hit
the early skip return (every row the four preprocessors emit
satisfies this: attempted implies hours or a truthy label are
present). -/
def PRowOk (pr : PRow) : Prop :=
  pr.attempted = true →
    ¬(to_float pr.row.sched_hours = Option.none ∧ to_float pr.row.actual_hours = Option.none ∧
      remarksOf pr.row = Cell.none ∧ labelOf pr.row = Cell.none)

/-- Well-formedness of a legacy CSV file: every data row with a
chatter name and a date has a parseable date. -/
def WfCsvLegacy (rows : List CsvLegacyRow) : Prop :=
  ∀ r ∈ rows, r.chatter_name ≠ "" → r.date ≠ "" → parse_date_flexible r.date ≠ Option.none

/-- Well-formedness of a simplified CSV file. -/
def WfCsvNew (rows : List CsvNewRow) : Prop :=
  ∀ r ∈ rows, String.mk (trimChars r.chatter.data) ≠ "" → r.start_date ≠ "" →
    parse_mmddyyyy_only r.start_date ≠ Option.none

/-- Well-formedness of a legacy Excel sheet: no data row makes the
preprocessing raise. -/
def WfXlLegacy (rows : List XlLegacyRow) : Prop :=
  ∀ r ∈ rows, ∃ o, prepXlLegacy r = Except.ok o

/-- Well-formedness of a simplified Excel sheet. -/
def WfXlNew (rows : List XlNewRow) : Prop :=
  ∀ r ∈ rows, ∃ o, prepXlNew r = Except.ok o

/-! ## Order instances for the dashboard sort relations -/

instance : IsTotal Snap salesGe :=
  ⟨fun a b => le_total b.total_sales a.total_sales⟩

instance : IsTrans Snap salesGe :=
  ⟨fun _ _ _ hab hbc => le_trans hbc hab⟩

instance : IsTotal Snap rankLe := by
  constructor
  intro a b
  unfold rankLe
  rcases ka : rankKey a with _ | x <;> rcases kb : rankKey b with _ | y
  · rcases le_total b.total_sales a.total_sales with h2 | h2
    · exact Or.inl (Or.inr ⟨rfl, h2⟩)
    · exact Or.inr (Or.inr ⟨rfl, h2⟩)
  · exact Or.inr (Or.inl trivial)
  · exact Or.inl (Or.inl trivial)
  · rcases lt_trichotomy x y with h | h | h
    · exact Or.inl (Or.inl h)
    · subst h
      rcases le_total b.total_sales a.total_sales with h2 | h2
      · exact Or.inl (Or.inr ⟨rfl, h2⟩)
      · exact Or.inr (Or.inr ⟨rfl, h2⟩)
    · exact Or.inr (Or.inl h)

instance : IsTrans Snap rankLe := by
  constructor
  intro a b c hab hbc
  rcases hab with hab | ⟨hab, hab2⟩
  · rcases hbc with hbc | ⟨hbc, _⟩
    · left
      rcases ka : rankKey a with _ | x <;> rcases kb : rankKey b with _ | y <;>
        rcases kc : rankKey c with _ | z <;> rw [ka, kb] at hab <;> rw [kb, kc] at hbc <;>
        simp only [rkLt] at hab hbc ⊢ <;> first | exact hab.trans hbc | trivial
    · left; rwa [hbc] at hab
  · rcases hbc with hbc | ⟨hbc, hbc2⟩
    · left; rwa [← hab] at hbc
    · right; exact ⟨hab.trans hbc, le_trans hbc2 hab2⟩

/-! ## Helper lemmas -/

theorem fillOpt_snd_iff (cur v : Option α) :
    (fillOpt cur v).2 = true ↔ (fillOpt cur v).1 ≠ cur := by
  cases v <;> cases cur <;> simp [fillOpt]

theorem fillOpt_fst_of_ne (cur v : Option α) (h : cur ≠ Option.none) :
    (fillOpt cur v).1 = cur := by
  cases v <;> cases cur <;> simp_all [fillOpt]

theorem fillOpt_fst_none (v : Option α) : (fillOpt Option.none v).1 = v := by
  cases v <;> simp [fillOpt]

theorem fillOpt_fst_ne_none (cur v : Option α) (h : cur ≠ Option.none) :
    (fillOpt cur v).1 ≠ Option.none := by
  rw [fillOpt_fst_of_ne cur v h]; exact h

/-! ## Claim C9: safe_div -/

/-- Claim C9.  safe_div returns null exactly when the divisor is zero
or either operand is null, and otherwise returns the exact
quotient. -/
theorem claim_C9_safe_div :
    (∀ n d : Option Rat,
      safe_div n d = Option.none ↔ d = some 0 ∨ n = Option.none ∨ d = Option.none) ∧
    (∀ a b : Rat, b ≠ 0 → safe_div (some a) (some b) = some (a / b)) := by
  constructor
  · intro n d
    cases n with
    | none => simp [safe_div]
    | some a =>
      cases d with
      | none => simp [safe_div]
      | some b =>
        by_cases hb : b = 0 <;> simp [safe_div, hb]
  · intro a b hb
    simp [safe_div, hb]

/-- Witness for C9 at the examples of the specification. -/
theorem claim_C9_safe_div_witness :
    safe_div (some 100) (some 2) = some 50 ∧ safe_div (some 100) (some 0) = Option.none := by
  constructor
  · rw [claim_C9_safe_div.2 100 2 (by norm_num)]
    norm_num
  · exact (claim_C9_safe_div.1 (some 100) (some 0)).2 (Or.inl rfl)

/-! ## Claim C7: compute_unlock_ratio (corrected) -/

/-- Counterexample to claim C7 as stated: with a null unlock count and
a nonzero sold count, compute_unlock_ratio returns 0 while safe_div
on the same operands returns null. -/
theorem claim_C7_counterexample :
    compute_unlock_ratio Option.none (some 10) = some 0 ∧
    safe_div Option.none (some ((10 : Int) : Rat)) = Option.none ∧
    compute_unlock_ratio Option.none (some 10) ≠
      safe_div Option.none (some ((10 : Int) : Rat)) := by
  have h1 : compute_unlock_ratio Option.none (some 10) = some 0 := by
    simp [compute_unlock_ratio, safe_div, pyOrZero]
  exact ⟨h1, rfl, by rw [h1]; simp [safe_div]⟩

/-- Claim C7 as amended: compute_unlock_ratio coerces null operands to
zero before dividing, so it equals safe_div of (unlocked or 0) by
(sold or 0); it agrees with safe_div of the raw operands whenever the
unlock count is non-null, and the two stated examples hold, but a
null unlock count with a nonzero sold count yields 0 rather than
null. -/
theorem claim_C7_amended :
    (∀ u s : Option Int,
      compute_unlock_ratio u s =
        safe_div (some ((pyOrZero u : Int) : Rat)) (some ((pyOrZero s : Int) : Rat))) ∧
    (∀ (a : Int) (s : Option Int),
      compute_unlock_ratio (some a) s =
        safe_div (some ((a : Int) : Rat)) (Option.map (fun i : Int => (i : Rat)) s)) ∧
    (∀ b : Int, b ≠ 0 → compute_unlock_ratio Option.none (some b) = some 0) ∧
    compute_unlock_ratio (some 5) (some 10) = some (1 / 2) ∧
    compute_unlock_ratio (some 5) (some 0) = Option.none := by
  refine ⟨fun u s => rfl, ?_, ?_,
    by simp [compute_unlock_ratio, safe_div, pyOrZero]; norm_num,
    by simp [compute_unlock_ratio, safe_div, pyOrZero]⟩
  · intro a s
    cases s with
    | none => simp [compute_unlock_ratio, safe_div, pyOrZero]
    | some b =>
      by_cases hb : b = 0 <;>
        simp [compute_unlock_ratio, safe_div, pyOrZero, hb]
  · intro b hb
    have hbq : ((b : Rat)) ≠ 0 := Int.cast_ne_zero.mpr hb
    simp [compute_unlock_ratio, safe_div, pyOrZero, hbq]

/-- Witness for the amended C7 at concrete inputs. -/
theorem claim_C7_amended_witness :
    compute_unlock_ratio Option.none (some 10) = some 0 ∧
    compute_unlock_ratio (some 5) (some 10) =
      safe_div (some ((5 : Int) : Rat)) (Option.map (fun i : Int => (i : Rat)) (some 10)) := by
  exact ⟨claim_C7_amended.2.2.1 10 (by norm_num), claim_C7_amended.2.1 5 (some 10)⟩

/-! ## Claim C6: unlock value interpretation on import -/

/-- Claim C6.  The derived unlock_ratio keeps a number in [0,1] as a
ratio, divides a number in (1,100] by 100, and discards anything
else; independently, unlock_count is the integer parse of the same
raw value, and a created performance row stores exactly these two
derived values. -/
theorem claim_C6_unlock_interpretation :
    (∀ (raw : Cell) (u : Rat), to_float raw = some u →
      ((0 ≤ u ∧ u ≤ 1) → unlock_ratio_of raw = some u) ∧
      ((1 < u ∧ u ≤ 100) → unlock_ratio_of raw = some (u / 100)) ∧
      ((u < 0 ∨ 100 < u) → unlock_ratio_of raw = Option.none)) ∧
    (∀ raw : Cell, to_float raw = Option.none → unlock_ratio_of raw = Option.none) ∧
    (∀ (db : Store) (cid : Nat) (tid : Option Nat) (dt : YMD) (row : RowDict),
      findPerf db cid dt = Option.none →
      ∃ p : PerformanceDaily,
        (upsert_performance db cid tid dt row).1.perfs = db.perfs ++ [p] ∧
        p.unlock_ratio = unlock_ratio_of row.unlock ∧
        p.unlock_count = to_int row.unlock ∧
        (upsert_performance db cid tid dt row).2 = UpsertStatus.created) := by
  refine ⟨?_, ?_, ?_⟩
  · intro raw u hu
    refine ⟨?_, ?_, ?_⟩
    · rintro ⟨h0, h1⟩
      have hn : ¬(1 < u ∧ u ≤ 100) := by
        rintro ⟨h, _⟩; linarith
      simp [unlock_ratio_of, hu, hn, h0, h1]
    · rintro ⟨h1, h100⟩
      simp [unlock_ratio_of, hu, h1, h100]
    · rintro (h | h)
      · have hn1 : ¬(1 < u ∧ u ≤ 100) := by rintro ⟨h2, _⟩; linarith
        have hn2 : ¬(0 ≤ u ∧ u ≤ 1) := by rintro ⟨h2, _⟩; linarith
        simp [unlock_ratio_of, hu, hn1, hn2]
      · have hn1 : ¬(1 < u ∧ u ≤ 100) := by rintro ⟨_, h2⟩; linarith
        have hn2 : ¬(0 ≤ u ∧ u ≤ 1) := by rintro ⟨_, h2⟩; linarith
        simp [unlock_ratio_of, hu, hn1, hn2]
  · intro raw h
    simp [unlock_ratio_of, h]
  · intro db cid tid dt row h
    unfold upsert_performance
    rw [h]
    exact ⟨_, rfl, rfl, rfl, rfl⟩

/-- Witness for C6: a raw value of 5 is read as five percent, a raw
0.25 as a ratio, a raw 150 is discarded, and a creating upsert against
the empty store records the derived ratio and count. -/
theorem claim_C6_unlock_interpretation_witness :
    unlock_ratio_of (Cell.num 5) = some (1 / 20) ∧
    unlock_ratio_of (Cell.num (1 / 4)) = some (1 / 4) ∧
    unlock_ratio_of (Cell.num 150) = Option.none ∧
    (∃ p : PerformanceDaily,
      (upsert_performance emptyStore 1 Option.none ⟨2025, 1, 31⟩
        { day := Cell.none, sales := Cell.none, sold := Cell.none, retention := Cell.none,
          unlock := Cell.num 5, total := Cell.none, sph := Cell.none, art := Cell.none,
          golden_ratio := Cell.none, hinge_top_up := Cell.none, tricks_tsf := Cell.none,
          remarks := Cell.none, sched_hours := Cell.none, actual_hours := Cell.none,
          shift := Cell.none }).1.perfs = emptyStore.perfs ++ [p] ∧
      p.unlock_ratio = unlock_ratio_of (Cell.num 5) ∧
      p.unlock_count = to_int (Cell.num 5) ∧
      (upsert_performance emptyStore 1 Option.none ⟨2025, 1, 31⟩
        { day := Cell.none, sales := Cell.none, sold := Cell.none, retention := Cell.none,
          unlock := Cell.num 5, total := Cell.none, sph := Cell.none, art := Cell.none,
          golden_ratio := Cell.none, hinge_top_up := Cell.none, tricks_tsf := Cell.none,
          remarks := Cell.none, sched_hours := Cell.none, actual_hours := Cell.none,
          shift := Cell.none }).2 = UpsertStatus.created) := by
  refine ⟨?_, ?_, ?_, ?_⟩
  · have h := ((claim_C6_unlock_interpretation.1 (Cell.num 5) 5 rfl).2.1 (by norm_num))
    rw [h]; norm_num
  · have h := ((claim_C6_unlock_interpretation.1 (Cell.num (1 / 4)) (1 / 4) rfl).1 (by norm_num))
    rw [h]
  · exact (claim_C6_unlock_interpretation.1 (Cell.num 150) 150 rfl).2.2 (Or.inr (by norm_num))
  · exact claim_C6_unlock_interpretation.2.2 emptyStore 1 Option.none ⟨2025, 1, 31⟩ _ rfl

/-! ## Claim C2: fill-not-overwrite -/

theorem fillPerf_changed_iff (tid : Option Nat) (pl : PerfPayload) (art : Option Nat)
    (p : PerformanceDaily) :
    (fillPerf tid pl art p).2 = true ↔ (fillPerf tid pl art p).1 ≠ p := by
  obtain ⟨cid, ptid, dt, f1, f2, f3, f4, f5, f6, f7, f8, f9, f10, fart⟩ := p
  simp only [fillPerf, Bool.or_eq_true]
  constructor
  · intro h hq
    rcases h with ((((((((((h | h) | h) | h) | h) | h) | h) | h) | h) | h) | h) | h
    · by_cases hc : teamTruthy tid = true ∧ (ptid = Option.none ∨ ptid = some 0)
      · have ht : (if teamTruthy tid = true ∧ (ptid = Option.none ∨ ptid = some 0) then
            ((tid, true) : Option Nat × Bool) else (ptid, false)).1 = ptid :=
          congrArg PerformanceDaily.team_id hq
        rw [if_pos hc] at ht
        rcases hc with ⟨htr, hp | hp⟩ <;> subst hp
        · have ht2 : tid = Option.none := ht
          rw [ht2] at htr
          simp [teamTruthy] at htr
        · have ht2 : tid = some 0 := ht
          rw [ht2] at htr
          simp [teamTruthy] at htr
      · rw [if_neg hc] at h
        simp at h
    · exact (fillOpt_snd_iff f1 pl.sales_amount).mp h
        (congrArg PerformanceDaily.sales_amount hq)
    · exact (fillOpt_snd_iff f2 pl.sold_count).mp h
        (congrArg PerformanceDaily.sold_count hq)
    · exact (fillOpt_snd_iff f3 pl.retention_count).mp h
        (congrArg PerformanceDaily.retention_count hq)
    · exact (fillOpt_snd_iff f4 pl.unlock_count).mp h
        (congrArg PerformanceDaily.unlock_count hq)
    · exact (fillOpt_snd_iff f5 pl.unlock_ratio).mp h
        (congrArg PerformanceDaily.unlock_ratio hq)
    · exact (fillOpt_snd_iff f6 pl.total_sales).mp h
        (congrArg PerformanceDaily.total_sales hq)
    · exact (fillOpt_snd_iff f7 pl.sph).mp h
        (congrArg PerformanceDaily.sph hq)
    · exact (fillOpt_snd_iff f8 pl.golden_ratio).mp h
        (congrArg PerformanceDaily.golden_ratio hq)
    · exact (fillOpt_snd_iff f9 pl.hinge_top_up).mp h
        (congrArg PerformanceDaily.hinge_top_up hq)
    · exact (fillOpt_snd_iff f10 pl.tricks_tsf).mp h
        (congrArg PerformanceDaily.tricks_tsf hq)
    · exact (fillOpt_snd_iff fart art).mp h
        (congrArg PerformanceDaily.art_interval hq)
  · intro h
    by_contra hb
    push_neg at hb
    apply h
    have h0 : (if teamTruthy tid = true ∧ (ptid = Option.none ∨ ptid = some 0) then
        ((tid, true) : Option Nat × Bool) else (ptid, false)).2 = false ∧
        (fillOpt f1 pl.sales_amount).2 = false ∧ (fillOpt f2 pl.sold_count).2 = false ∧
        (fillOpt f3 pl.retention_count).2 = false ∧ (fillOpt f4 pl.unlock_count).2 = false ∧
        (fillOpt f5 pl.unlock_ratio).2 = false ∧ (fillOpt f6 pl.total_sales).2 = false ∧
        (fillOpt f7 pl.sph).2 = false ∧ (fillOpt f8 pl.golden_ratio).2 = false ∧
        (fillOpt f9 pl.hinge_top_up).2 = false ∧ (fillOpt f10 pl.tricks_tsf).2 = false ∧
        (fillOpt fart art).2 = false := by
      revert hb
      by_cases hc : teamTruthy tid = true ∧ (ptid = Option.none ∨ ptid = some 0) <;>
        simp [hc] <;> tauto
    obtain ⟨g0, g1, g2, g3, g4, g5, g6, g7, g8, g9, g10, ga⟩ := h0
    have e0 : (if teamTruthy tid = true ∧ (ptid = Option.none ∨ ptid = some 0) then
        ((tid, true) : Option Nat × Bool) else (ptid, false)).1 = ptid := by
      by_cases hc : teamTruthy tid = true ∧ (ptid = Option.none ∨ ptid = some 0) <;>
        simp [hc] at g0 ⊢
    have e1 := (not_iff_not.mpr (fillOpt_snd_iff f1 pl.sales_amount)).mp (by simp [g1])
    have e2 := (not_iff_not.mpr (fillOpt_snd_iff f2 pl.sold_count)).mp (by simp [g2])
    have e3 := (not_iff_not.mpr (fillOpt_snd_iff f3 pl.retention_count)).mp (by simp [g3])
    have e4 := (not_iff_not.mpr (fillOpt_snd_iff f4 pl.unlock_count)).mp (by simp [g4])
    have e5 := (not_iff_not.mpr (fillOpt_snd_iff f5 pl.unlock_ratio)).mp (by simp [g5])
    have e6 := (not_iff_not.mpr (fillOpt_snd_iff f6 pl.total_sales)).mp (by simp [g6])
    have e7 := (not_iff_not.mpr (fillOpt_snd_iff f7 pl.sph)).mp (by simp [g7])
    have e8 := (not_iff_not.mpr (fillOpt_snd_iff f8 pl.golden_ratio)).mp (by simp [g8])
    have e9 := (not_iff_not.mpr (fillOpt_snd_iff f9 pl.hinge_top_up)).mp (by simp [g9])
    have e10 := (not_iff_not.mpr (fillOpt_snd_iff f10 pl.tricks_tsf)).mp (by simp [g10])
    have ea := (not_iff_not.mpr (fillOpt_snd_iff fart art)).mp (by simp [ga])
    push_neg at e1 e2 e3 e4 e5 e6 e7 e8 e9 e10 ea
    show PerformanceDaily.mk _ _ _ _ _ _ _ _ _ _ _ _ _ _ =
      PerformanceDaily.mk cid ptid dt f1 f2 f3 f4 f5 f6 f7 f8 f9 f10 fart
    rw [e0, e1, e2, e3, e4, e5, e6, e7, e8, e9, e10, ea]

/-- Claim C2.  When a performance row already exists, the upsert
rewrites exactly the queried row through the fill merge; each field
that is populated stays untouched and each null field receives the
supplied value; and the reported status is updated exactly when the
merged row differs from the existing one (and is never created).
The hypothesis that the stored team id is not the literal 0 holds for
every store the application builds, since ids are handed out from
1. -/
theorem claim_C2_fill_not_overwrite :
    ∀ (db : Store) (cid : Nat) (tid : Option Nat) (dt : YMD) (row : RowDict)
      (p : PerformanceDaily),
      findPerf db cid dt = some p → p.team_id ≠ some 0 →
      ((upsert_performance db cid tid dt row).1.perfs =
          updateFirst (fun x => x.chatter_id == cid && x.shift_date == dt)
            (fun x => (fillPerf tid (payloadOf row) (parse_art_interval row.art) x).1)
            db.perfs ∧
        ((upsert_performance db cid tid dt row).2 = UpsertStatus.updated ∨
          (upsert_performance db cid tid dt row).2 = UpsertStatus.skipped) ∧
        ((upsert_performance db cid tid dt row).2 = UpsertStatus.updated ↔
          (fillPerf tid (payloadOf row) (parse_art_interval row.art) p).1 ≠ p) ∧
        (p.sales_amount ≠ Option.none →
          (fillPerf tid (payloadOf row) (parse_art_interval row.art) p).1.sales_amount =
            p.sales_amount) ∧
        (p.sales_amount = Option.none →
          (fillPerf tid (payloadOf row) (parse_art_interval row.art) p).1.sales_amount =
            (payloadOf row).sales_amount) ∧
        (p.sold_count ≠ Option.none →
          (fillPerf tid (payloadOf row) (parse_art_interval row.art) p).1.sold_count =
            p.sold_count) ∧
        (p.sold_count = Option.none →
          (fillPerf tid (payloadOf row) (parse_art_interval row.art) p).1.sold_count =
            (payloadOf row).sold_count) ∧
        (p.retention_count ≠ Option.none →
          (fillPerf tid (payloadOf row) (parse_art_interval row.art) p).1.retention_count =
            p.retention_count) ∧
        (p.retention_count = Option.none →
          (fillPerf tid (payloadOf row) (parse_art_interval row.art) p).1.retention_count =
            (payloadOf row).retention_count) ∧
        (p.unlock_count ≠ Option.none →
          (fillPerf tid (payloadOf row) (parse_art_interval row.art) p).1.unlock_count =
            p.unlock_count) ∧
        (p.unlock_count = Option.none →
          (fillPerf tid (payloadOf row) (parse_art_interval row.art) p).1.unlock_count =
            (payloadOf row).unlock_count) ∧
        (p.unlock_ratio ≠ Option.none →
          (fillPerf tid (payloadOf row) (parse_art_interval row.art) p).1.unlock_ratio =
            p.unlock_ratio) ∧
        (p.unlock_ratio = Option.none →
          (fillPerf tid (payloadOf row) (parse_art_interval row.art) p).1.unlock_ratio =
            (payloadOf row).unlock_ratio) ∧
        (p.total_sales ≠ Option.none →
          (fillPerf tid (payloadOf row) (parse_art_interval row.art) p).1.total_sales =
            p.total_sales) ∧
        (p.total_sales = Option.none →
          (fillPerf tid (payloadOf row) (parse_art_interval row.art) p).1.total_sales =
            (payloadOf row).total_sales) ∧
        (p.sph ≠ Option.none →
          (fillPerf tid (payloadOf row) (parse_art_interval row.art) p).1.sph = p.sph) ∧
        (p.sph = Option.none →
          (fillPerf tid (payloadOf row) (parse_art_interval row.art) p).1.sph =
            (payloadOf row).sph) ∧
        (p.golden_ratio ≠ Option.none →
          (fillPerf tid (payloadOf row) (parse_art_interval row.art) p).1.golden_ratio =
            p.golden_ratio) ∧
        (p.golden_ratio = Option.none →
          (fillPerf tid (payloadOf row) (parse_art_interval row.art) p).1.golden_ratio =
            (payloadOf row).golden_ratio) ∧
        (p.hinge_top_up ≠ Option.none →
          (fillPerf tid (payloadOf row) (parse_art_interval row.art) p).1.hinge_top_up =
            p.hinge_top_up) ∧
        (p.hinge_top_up = Option.none →
          (fillPerf tid (payloadOf row) (parse_art_interval row.art) p).1.hinge_top_up =
            (payloadOf row).hinge_top_up) ∧
        (p.tricks_tsf ≠ Option.none →
          (fillPerf tid (payloadOf row) (parse_art_interval row.art) p).1.tricks_tsf =
            p.tricks_tsf) ∧
        (p.tricks_tsf = Option.none →
          (fillPerf tid (payloadOf row) (parse_art_interval row.art) p).1.tricks_tsf =
            (payloadOf row).tricks_tsf) ∧
        (p.art_interval ≠ Option.none →
          (fillPerf tid (payloadOf row) (parse_art_interval row.art) p).1.art_interval =
            p.art_interval) ∧
        (p.art_interval = Option.none →
          (fillPerf tid (payloadOf row) (parse_art_interval row.art) p).1.art_interval =
            parse_art_interval row.art) ∧
        (p.team_id ≠ Option.none →
          (fillPerf tid (payloadOf row) (parse_art_interval row.art) p).1.team_id =
            p.team_id) ∧
        (p.team_id = Option.none →
          (fillPerf tid (payloadOf row) (parse_art_interval row.art) p).1.team_id =
            (if teamTruthy tid = true then tid else Option.none))) := by
  intro db cid tid dt row p h h0
  have hperfs : (upsert_performance db cid tid dt row).1.perfs =
      updateFirst (fun x => x.chatter_id == cid && x.shift_date == dt)
        (fun x => (fillPerf tid (payloadOf row) (parse_art_interval row.art) x).1) db.perfs := by
    unfold upsert_performance
    rw [h]
  have hstat : (upsert_performance db cid tid dt row).2 =
      (if (fillPerf tid (payloadOf row) (parse_art_interval row.art) p).2 then
        UpsertStatus.updated else UpsertStatus.skipped) := by
    unfold upsert_performance
    rw [h]
  refine ⟨hperfs, ?_, ?_, ?_, ?_, ?_, ?_, ?_, ?_, ?_, ?_, ?_, ?_, ?_, ?_, ?_, ?_, ?_,
    ?_, ?_, ?_, ?_, ?_, ?_, ?_, ?_, ?_⟩
  · rw [hstat]
    by_cases hf : (fillPerf tid (payloadOf row) (parse_art_interval row.art) p).2 = true
    · exact Or.inl (by rw [if_pos hf])
    · exact Or.inr (by rw [if_neg hf])
  · rw [hstat]
    rw [← fillPerf_changed_iff]
    by_cases hf : (fillPerf tid (payloadOf row) (parse_art_interval row.art) p).2 = true
    · simp [hf]
    · simp [hf]
  · exact fun hne => fillOpt_fst_of_ne _ _ hne
  · intro hno
    show (fillOpt p.sales_amount (payloadOf row).sales_amount).1 = _
    rw [hno]
    exact fillOpt_fst_none _
  · exact fun hne => fillOpt_fst_of_ne _ _ hne
  · intro hno
    show (fillOpt p.sold_count (payloadOf row).sold_count).1 = _
    rw [hno]
    exact fillOpt_fst_none _
  · exact fun hne => fillOpt_fst_of_ne _ _ hne
  · intro hno
    show (fillOpt p.retention_count (payloadOf row).retention_count).1 = _
    rw [hno]
    exact fillOpt_fst_none _
  · exact fun hne => fillOpt_fst_of_ne _ _ hne
  · intro hno
    show (fillOpt p.unlock_count (payloadOf row).unlock_count).1 = _
    rw [hno]
    exact fillOpt_fst_none _
  · exact fun hne => fillOpt_fst_of_ne _ _ hne
  · intro hno
    show (fillOpt p.unlock_ratio (payloadOf row).unlock_ratio).1 = _
    rw [hno]
    exact fillOpt_fst_none _
  · exact fun hne => fillOpt_fst_of_ne _ _ hne
  · intro hno
    show (fillOpt p.total_sales (payloadOf row).total_sales).1 = _
    rw [hno]
    exact fillOpt_fst_none _
  · exact fun hne => fillOpt_fst_of_ne _ _ hne
  · intro hno
    show (fillOpt p.sph (payloadOf row).sph).1 = _
    rw [hno]
    exact fillOpt_fst_none _
  · exact fun hne => fillOpt_fst_of_ne _ _ hne
  · intro hno
    show (fillOpt p.golden_ratio (payloadOf row).golden_ratio).1 = _
    rw [hno]
    exact fillOpt_fst_none _
  · exact fun hne => fillOpt_fst_of_ne _ _ hne
  · intro hno
    show (fillOpt p.hinge_top_up (payloadOf row).hinge_top_up).1 = _
    rw [hno]
    exact fillOpt_fst_none _
  · exact fun hne => fillOpt_fst_of_ne _ _ hne
  · intro hno
    show (fillOpt p.tricks_tsf (payloadOf row).tricks_tsf).1 = _
    rw [hno]
    exact fillOpt_fst_none _
  · exact fun hne => fillOpt_fst_of_ne _ _ hne
  · intro hno
    show (fillOpt p.art_interval (parse_art_interval row.art)).1 = _
    rw [hno]
    exact fillOpt_fst_none _
  · intro hne
    show (if teamTruthy tid = true ∧ (p.team_id = Option.none ∨ p.team_id = some 0) then
      ((tid, true) : Option Nat × Bool) else (p.team_id, false)).1 = p.team_id
    rw [if_neg]
    rintro ⟨_, hc | hc⟩
    · exact hne hc
    · exact h0 hc
  · intro hno
    show (if teamTruthy tid = true ∧ (p.team_id = Option.none ∨ p.team_id = some 0) then
      ((tid, true) : Option Nat × Bool) else (p.team_id, false)).1 =
        (if teamTruthy tid = true then tid else Option.none)
    by_cases htr : teamTruthy tid = true
    · rw [if_pos ⟨htr, Or.inl hno⟩, if_pos htr]
    · rw [if_neg (fun hc => htr hc.1), if_neg htr, hno]

/-- Witness for C2: an existing row with sales_amount 100 and null
sold_count, re-imported with a row supplying both, updates only
sold_count, keeps sales_amount, and reports updated. -/
theorem claim_C2_fill_not_overwrite_witness :
    (let p0 : PerformanceDaily :=
      { chatter_id := 1, team_id := Option.none, shift_date := ⟨2025, 1, 31⟩,
        sales_amount := some 100, sold_count := Option.none, retention_count := Option.none,
        unlock_count := Option.none, unlock_ratio := Option.none, total_sales := Option.none,
        sph := Option.none, golden_ratio := Option.none, hinge_top_up := Option.none,
        tricks_tsf := Option.none, art_interval := Option.none }
     let db0 : Store := { emptyStore with perfs := [p0] }
     let row0 : RowDict :=
      { day := Cell.none, sales := Cell.str "120", sold := Cell.str "2",
        retention := Cell.none, unlock := Cell.none, total := Cell.none, sph := Cell.none,
        art := Cell.none, golden_ratio := Cell.none, hinge_top_up := Cell.none,
        tricks_tsf := Cell.none, remarks := Cell.none, sched_hours := Cell.none,
        actual_hours := Cell.none, shift := Cell.none }
     (fillPerf Option.none (payloadOf row0) (parse_art_interval row0.art) p0).1.sales_amount =
        some 100 ∧
      (fillPerf Option.none (payloadOf row0) (parse_art_interval row0.art) p0).1.sold_count =
        some 2 ∧
      (upsert_performance db0 1 Option.none ⟨2025, 1, 31⟩ row0).2 = UpsertStatus.updated) := by
  intro p0 db0 row0
  have h := claim_C2_fill_not_overwrite db0 1 Option.none ⟨2025, 1, 31⟩ row0 p0 rfl
    (by intro hc; exact Option.noConfusion hc)
  refine ⟨h.2.2.2.1 (by intro hc; exact Option.noConfusion hc), ?_, ?_⟩
  · rw [h.2.2.2.2.2.2.1 rfl]
    decide
  · rw [(h.2.2.1).2]
    intro hq
    have := congrArg PerformanceDaily.sold_count hq
    revert this
    decide

/-! ## Dashboard lemmas -/

theorem mem_assignRanksFrom_ranking (i : Int) (l : List Snap) :
    ∀ m ∈ assignRanksFrom i l, i ≤ m.ranking := by
  induction l generalizing i with
  | nil => intro m hm; cases hm
  | cons x l ih =>
    intro m hm
    rcases List.mem_cons.mp hm with hm | hm
    · subst hm; exact le_refl i
    · exact le_trans (by omega) (ih (i + 1) m hm)

theorem assignRanksFrom_sorted (i : Int) (hi : 1 ≤ i) (l : List Snap) :
    List.Sorted rankLe (assignRanksFrom i l) := by
  induction l generalizing i with
  | nil => exact List.sorted_nil
  | cons x l ih =>
    refine List.sorted_cons.mpr ⟨?_, ih (i + 1) (by omega)⟩
    intro y hy
    have hyr := mem_assignRanksFrom_ranking (i + 1) l y hy
    left
    have hki : rankKey { x with ranking := i } = some i := by
      simp [rankKey]
      omega
    have hky : rankKey y = some y.ranking := by
      simp [rankKey]
      omega
    rw [hki, hky]
    show i < y.ranking
    omega

theorem fillRanksFrom_eq_self (i : Int) (l : List Snap) (h : ∀ m ∈ l, m.ranking ≠ 0) :
    fillRanksFrom i l = l := by
  induction l generalizing i with
  | nil => rfl
  | cons x l ih =>
    have hx := h x (List.mem_cons_self x l)
    simp only [fillRanksFrom, if_neg hx]
    rw [ih (i + 1) (fun m hm => h m (List.mem_cons_of_mem x hm))]

theorem assignRanksFrom_length (i : Int) (l : List Snap) :
    (assignRanksFrom i l).length = l.length := by
  induction l generalizing i with
  | nil => rfl
  | cons x l ih => simp [assignRanksFrom, ih]

theorem assignRanksFrom_get_ranking (l : List Snap) (i : Int) (k : Nat)
    (h : k < (assignRanksFrom i l).length) :
    ((assignRanksFrom i l).get ⟨k, h⟩).ranking = i + k := by
  induction l generalizing i k with
  | nil => cases h
  | cons x l ih =>
    cases k with
    | zero => simp [assignRanksFrom]
    | succ k =>
      have h2 : k < (assignRanksFrom (i + 1) l).length := by
        simpa [assignRanksFrom] using h
      have := ih (i + 1) k h2
      simp only [assignRanksFrom, List.get_cons_succ]
      rw [this]
      push_cast
      ring

theorem fillRanksFrom_get_ranking (l : List Snap) (i : Int) (k : Nat)
    (h : k < (fillRanksFrom i l).length) (h2 : k < l.length) :
    ((fillRanksFrom i l).get ⟨k, h⟩).ranking =
      (if (l.get ⟨k, h2⟩).ranking = 0 then i + (k : Int) else (l.get ⟨k, h2⟩).ranking) := by
  induction l generalizing i k with
  | nil => cases h2
  | cons x l ih =>
    cases k with
    | zero => simp [fillRanksFrom]
    | succ k =>
      have hlen : k < (fillRanksFrom (i + 1) l).length := by
        simpa [fillRanksFrom] using h
      have h2b : k < l.length := by simpa using h2
      simp only [fillRanksFrom, List.get_cons_succ]
      rw [ih (i + 1) k hlen h2b]
      by_cases hz : (l.get ⟨k, h2b⟩).ranking = 0 <;> simp [hz] <;> push_cast <;> ring

theorem sortRank_assignRanks_eq (l : List Snap) :
    sortRank (assignRanks l) = assignRanks l :=
  List.Sorted.insertionSort_eq (assignRanksFrom_sorted 1 (le_refl 1) l)

theorem fillRanks_assignRanks_eq (l : List Snap) :
    fillRanksFrom 1 (assignRanks l) = assignRanks l :=
  fillRanksFrom_eq_self 1 (assignRanksFrom 1 l)
    (fun m hm => by have := mem_assignRanksFrom_ranking 1 l m hm; omega)

theorem snapshotPipeline_no_overrides (metrics : List Snap) (s e : Option Int) :
    snapshotPipeline metrics [] s e = Except.ok (assignRanks (sortSalesDesc metrics)) := by
  unfold snapshotPipeline fetchedOv
  simp only [List.filter_nil, ite_self]
  have hany : (assignRanks (sortSalesDesc metrics)).any
      (fun m => (firstMatch ([] : List OverrideRow) m).isSome) = false := by
    simp [firstMatch]
  rw [hany]
  simp only [Bool.false_eq_true, if_false]
  rw [sortRank_assignRanks_eq, fillRanks_assignRanks_eq]
  simp only [List.map_nil, List.append_nil]
  rw [sortRank_assignRanks_eq, fillRanks_assignRanks_eq]

/-! ## Claim C10: override application coerces nulls (code bug) -/

/-- Claim C10, settled as a code bug.  The null-coercing field
replacement the claim describes is the loop body of router lines 180
to 189; but the same loop iteration then executes
m.override_id = int(chosen.id), and DashboardMetricSnapshot declares
no override_id field, so pydantic raises ValueError before the
function returns.  An override applied to a computed row therefore
always aborts the snapshot call, and no snapshot row carrying the
coerced values is ever produced: a computed row for Ann together with
a matching override whose fields are all null yields the ValueError
failure, not a row of zeros. -/
theorem claim_C10_override_null_coercion :
    snapshotPipeline
      [{ chatter_name := "Ann", total_sales := 100, worked_hours := 8,
         start_date := some 1, end_date := some 31, sph := 12, art := some "3m 42s",
         gr := 50, ur := 40, ranking := 0, shift := some "Day" }]
      [{ id := 7, chatter_name := "Ann", total_sales := Option.none,
         worked_hours := Option.none, start_date := Option.none, end_date := Option.none,
         sph := Option.none, art := Option.none, gr := Option.none, ur := Option.none,
         ranking := Option.none, shift := Option.none }]
      Option.none Option.none = Except.error valueErrorNoField := rfl

/-! ## Claim C4: override replacement (code bug) -/

/-- Claim C4, settled as a code bug.  The override-application loop
of _compute_dashboard_snapshot cannot complete: as soon as a computed
row has a chosen override (same chatter name, overlapping range), the
assignment m.override_id = int(chosen.id) raises ValueError because
DashboardMetricSnapshot declares no override_id field.  The snapshot
call therefore fails exactly when some computed row has a matching
override, and in particular the Ann example (computed total_sales
100, overlapping override total_sales 500) produces an error, never a
snapshot row with total_sales 500 marked overridden. -/
theorem claim_C4_override_replacement :
    (∀ (metrics : List Snap) (ovs : List OverrideRow) (s e : Option Int),
      (∃ em, snapshotPipeline metrics ovs s e = Except.error em) ↔
      (assignRanks (sortSalesDesc metrics)).any
        (fun m =>
          (firstMatch
            (fetchedOv
              ((assignRanks (sortSalesDesc metrics)).map (fun m2 => m2.chatter_name))
              ovs s e) m).isSome) = true) ∧
    snapshotPipeline
      [{ chatter_name := "Ann", total_sales := 100, worked_hours := 0,
         start_date := some 1, end_date := some 31, sph := 0, art := Option.none,
         gr := 0, ur := 0, ranking := 0, shift := Option.none }]
      [{ id := 7, chatter_name := "Ann", total_sales := some 500,
         worked_hours := Option.none, start_date := some 5, end_date := some 20,
         sph := Option.none, art := Option.none, gr := Option.none, ur := Option.none,
         ranking := Option.none, shift := Option.none }]
      Option.none Option.none = Except.error valueErrorNoField := by
  constructor
  · intro metrics ovs s e
    unfold snapshotPipeline
    dsimp only
    cases hc : (assignRanks (sortSalesDesc metrics)).any
        (fun m =>
          (firstMatch
            (fetchedOv
              ((assignRanks (sortSalesDesc metrics)).map (fun m2 => m2.chatter_name))
              ovs s e) m).isSome) with
    | true => simp
    | false => simp
  · rfl

/-! ## Claim C5: ranking -/

/-- Claim C5.  With no overrides the snapshot is exactly the computed
rows stably sorted by total sales descending with rankings assigned
1..N positionally; the re-sort used by the pipeline orders rows by
the explicit-ranking key (missing treated as plus infinity, ties by
total sales descending); and the normalization pass gives every row
whose ranking is still unset its 1-based position. -/
theorem claim_C5_ranking :
    (∀ (metrics : List Snap) (s e : Option Int),
      snapshotPipeline metrics [] s e = Except.ok (assignRanks (sortSalesDesc metrics))) ∧
    (∀ metrics : List Snap,
      (sortSalesDesc metrics).Perm metrics ∧ List.Sorted salesGe (sortSalesDesc metrics)) ∧
    (∀ (metrics : List Snap) (s e : Option Int) (l : List Snap),
      snapshotPipeline metrics [] s e = Except.ok l →
      ∀ (k : Nat) (h : k < l.length), (l.get ⟨k, h⟩).ranking = 1 + (k : Int)) ∧
    (∀ l : List Snap, (sortRank l).Perm l ∧ List.Sorted rankLe (sortRank l)) ∧
    (∀ (l : List Snap) (k : Nat) (h : k < (fillRanksFrom 1 l).length) (h2 : k < l.length),
      ((fillRanksFrom 1 l).get ⟨k, h⟩).ranking =
        (if (l.get ⟨k, h2⟩).ranking = 0 then 1 + (k : Int) else (l.get ⟨k, h2⟩).ranking)) := by
  refine ⟨snapshotPipeline_no_overrides, ?_, ?_, ?_, ?_⟩
  · intro metrics
    exact ⟨List.perm_insertionSort salesGe metrics, List.sorted_insertionSort salesGe metrics⟩
  · intro metrics s e l hl
    have h2 : l = assignRanks (sortSalesDesc metrics) := by
      rw [snapshotPipeline_no_overrides metrics s e] at hl
      exact (Except.ok.inj hl).symm
    subst h2
    intro k h
    exact assignRanksFrom_get_ranking (sortSalesDesc metrics) 1 k h
  · intro l
    exact ⟨List.perm_insertionSort rankLe l, List.sorted_insertionSort rankLe l⟩
  · intro l k h h2
    exact fillRanksFrom_get_ranking l 1 k h h2

/-- Witness for C5: three chatters with total sales 300, 200, 100 and
no overrides are ranked 1, 2, 3 in descending sales order. -/
theorem claim_C5_ranking_witness :
    (snapshotPipeline
      [{ chatter_name := "A", total_sales := 200, worked_hours := 0, start_date := some 1,
         end_date := some 31, sph := 0, art := Option.none, gr := 0, ur := 0, ranking := 0,
         shift := Option.none },
       { chatter_name := "B", total_sales := 300, worked_hours := 0, start_date := some 1,
         end_date := some 31, sph := 0, art := Option.none, gr := 0, ur := 0, ranking := 0,
         shift := Option.none },
       { chatter_name := "C", total_sales := 100, worked_hours := 0, start_date := some 1,
         end_date := some 31, sph := 0, art := Option.none, gr := 0, ur := 0, ranking := 0,
         shift := Option.none }] [] Option.none Option.none).map
      (fun l => l.map (fun m => (m.chatter_name, m.ranking))) =
      Except.ok [("B", 1), ("A", 2), ("C", 3)] := by
  rw [claim_C5_ranking.1]
  rfl

/-! ## Claim C3: unparseable row dates (corrected) -/

theorem foldlM_append_error {α β : Type} (prep : α → Except String β)
    (f : ImportState → β → ImportState) (r : α) (e : String)
    (he : prep r = Except.error e) :
    ∀ (rows1 : List α) (rows2 : List α) (st : ImportState),
      ∃ e2, (rows1 ++ r :: rows2).foldlM
        (fun s x => (prep x).map (f s)) st = Except.error e2 := by
  intro rows1
  induction rows1 with
  | nil =>
    intro rows2 st
    refine ⟨e, ?_⟩
    simp only [List.nil_append, List.foldlM_cons, he]
    rfl
  | cons x l ih =>
    intro rows2 st
    simp only [List.cons_append, List.foldlM_cons]
    cases hx : prep x with
    | error e3 => exact ⟨e3, rfl⟩
    | ok b =>
      obtain ⟨e2, h2⟩ := ih rows2 (f st b)
      exact ⟨e2, h2⟩

/-- Counterexample to claim C3 as stated: in the legacy
Excel importer a row whose date cell is the string 31/01/2025 (with a
chatter name present) raises and fails the whole import call, rather
than being silently skipped. -/
theorem claim_C3_counterexample :
    importXlLegacy emptyStore
      [{ team_name := Cell.none, chatter_name := Cell.str "Ann",
         sched_hours := Cell.none, actual_hours := Cell.none,
         date := Cell.str "31/01/2025", day := Cell.none, sales := Cell.none,
         sold := Cell.none, retention := Cell.none, unlock := Cell.none,
         total := Cell.none, sph := Cell.none, art := Cell.none,
         golden_ratio := Cell.none, hinge_top_up := Cell.none,
         tricks_tsf := Cell.none, remarks := Cell.none }] =
      (emptyStore, Except.error (dateErrMsg "31/01/2025")) := by
  rfl

/-- Claim C3 as amended.  In the CSV importers (both layouts) a data
row with a chatter name and a date that fails to parse is silently
dropped: the loop state is unchanged except for the row index, so
there is no store mutation, no rows_skipped count, no diagnostics
entry and no failure.  In the Excel importers the date parse is not
guarded: a string date that fails to parse raises, and any import
containing such a row fails as a whole.  The legacy date parser
accepts 2025-01-31 and 01/31/2025 and rejects 31/01/2025. -/
theorem claim_C3_amended :
    (∀ (st : ImportState) (r : CsvLegacyRow),
      r.chatter_name ≠ "" → r.date ≠ "" → parse_date_flexible r.date = Option.none →
      masterStep st (prepCsvLegacy r) = { st with idx := st.idx + 1 }) ∧
    (∀ (st : ImportState) (r : CsvNewRow),
      String.mk (trimChars r.chatter.data) ≠ "" → r.start_date ≠ "" →
      parse_mmddyyyy_only r.start_date = Option.none →
      masterStep st (prepCsvNew r) = { st with idx := st.idx + 1 }) ∧
    (∀ (r : XlLegacyRow) (s : String),
      strippedName r.chatter_name ≠ Option.none → strippedName r.chatter_name ≠ some "" →
      r.date = Cell.str s → s ≠ "" → parse_date_flexible s = Option.none →
      prepXlLegacy r = Except.error (dateErrMsg s)) ∧
    (∀ (db : Store) (rows1 rows2 : List XlLegacyRow) (r : XlLegacyRow) (e : String),
      prepXlLegacy r = Except.error e →
      ∃ e2, (importXlLegacy db (rows1 ++ r :: rows2)).2 = Except.error e2) ∧
    (∀ (r : XlNewRow) (s : String) (lab : Option String),
      xlNewLabel r.shift = Except.ok lab →
      strippedName r.chatter ≠ Option.none → strippedName r.chatter ≠ some "" →
      r.start_date = Cell.str s → s ≠ "" → parse_mmddyyyy_only s = Option.none →
      prepXlNew r = Except.error ("time data does not match format m/d/Y: " ++ s)) ∧
    (∀ (db : Store) (rows1 rows2 : List XlNewRow) (r : XlNewRow) (e : String),
      prepXlNew r = Except.error e →
      ∃ e2, (importXlNew db (rows1 ++ r :: rows2)).2 = Except.error e2) ∧
    parse_date_flexible "2025-01-31" = some ⟨2025, 1, 31⟩ ∧
    parse_date_flexible "01/31/2025" = some ⟨2025, 1, 31⟩ ∧
    parse_date_flexible "31/01/2025" = Option.none := by
  refine ⟨?_, ?_, ?_, ?_, ?_, ?_, by decide, by decide, by decide⟩
  · intro st r h1 h2 h3
    unfold prepCsvLegacy
    rw [if_neg (by simp [h1, h2]), h3]
    rfl
  · intro st r h1 h2 h3
    unfold prepCsvNew
    rw [if_neg ?hc, h3]
    · rfl
    case hc =>
      simp only [not_or]
      refine ⟨?_, h2⟩
      simp only [if_neg h1]
      intro hc
      exact Option.noConfusion hc
  · intro r s h1 h2 hdate h3 h4
    unfold prepXlLegacy
    rw [if_neg (by simp [h1, h2, hdate, Cell.truthy, h3]), hdate]
    simp [pyStr, h4, Except.map]
  · intro db rows1 rows2 r e he
    obtain ⟨e2, h2⟩ := foldlM_append_error prepXlLegacy masterStep r e he rows1 rows2
      (initState db)
    refine ⟨e2, ?_⟩
    unfold importXlLegacy
    rw [h2]
  · intro r s lab hlab h1 h2 hdate h3 h4
    unfold prepXlNew
    rw [hlab]
    have hbind : ∀ (g : Option String → Except String (Option PRow)),
        (Except.ok lab : Except String (Option String)).bind g = g lab := fun _ => rfl
    rw [hbind]
    dsimp only
    rw [if_neg (by simp [h1, h2, hdate, Cell.truthy, h3]), hdate]
    simp [pyStr, h4, Except.map]
  · intro db rows1 rows2 r e he
    obtain ⟨e2, h2⟩ := foldlM_append_error prepXlNew masterStep r e he rows1 rows2
      (initState db)
    refine ⟨e2, ?_⟩
    unfold importXlNew
    rw [h2]

/-- Witness for the amended C3: a concrete bad-date CSV row is a
no-op apart from the row index, and concrete legacy and simplified
Excel imports with the same date string fail. -/
theorem claim_C3_amended_witness :
    (let r : CsvLegacyRow :=
      { team_name := "T", chatter_name := "Ann", sched_hours := "", actual_hours := "",
        date := "31/01/2025", day := "", sales := "5", sold := "", retention := "",
        unlock := "", total := "", sph := "", art := "", golden_ratio := "",
        hinge_top_up := "", tricks_tsf := "", remarks := "" }
     masterStep (initState emptyStore) (prepCsvLegacy r) =
        { initState emptyStore with idx := 3 } ∧
      parse_date_flexible "2025-01-31" = some ⟨2025, 1, 31⟩ ∧
      (∃ e2, (importXlLegacy emptyStore
        [{ team_name := Cell.none, chatter_name := Cell.str "Ann",
           sched_hours := Cell.none, actual_hours := Cell.none,
           date := Cell.str "31/01/2025", day := Cell.none, sales := Cell.none,
           sold := Cell.none, retention := Cell.none, unlock := Cell.none,
           total := Cell.none, sph := Cell.none, art := Cell.none,
           golden_ratio := Cell.none, hinge_top_up := Cell.none,
           tricks_tsf := Cell.none, remarks := Cell.none }]).2 = Except.error e2) ∧
      (∃ e2, (importXlNew emptyStore
        [{ chatter := Cell.str "Ann", total_sales := Cell.none,
           start_date := Cell.str "31/01/2025", end_date := Cell.none,
           worked_hrs := Cell.none, sph := Cell.none, art := Cell.none,
           gr := Cell.none, ur := Cell.none, shift := Cell.none }]).2 =
        Except.error e2)) := by
  intro r
  refine ⟨?_, claim_C3_amended.2.2.2.2.2.2.1, ?_, ?_⟩
  · exact claim_C3_amended.1 (initState emptyStore) r (by decide) (by decide) (by decide)
  · refine claim_C3_amended.2.2.2.1 emptyStore [] [] _ (dateErrMsg "31/01/2025") ?_
    rfl
  · refine claim_C3_amended.2.2.2.2.2.1 emptyStore [] [] _
      ("time data does not match format m/d/Y: 31/01/2025") ?_
    rfl

/-! ## Claim C8: import atomicity -/

/-- Claim C8.  An Excel import call either succeeds and makes the
final staged store visible, or raises and leaves the visible store
exactly as it was: the single commit sits at the end of the loop, so
no partial rows survive a failure. -/
theorem claim_C8_import_atomicity :
    (∀ (db : Store) (rows : List XlLegacyRow) (e : String),
      (importXlLegacy db rows).2 = Except.error e → (importXlLegacy db rows).1 = db) ∧
    (∀ (db : Store) (rows : List XlLegacyRow) (st : ImportStats),
      (importXlLegacy db rows).2 = Except.ok st →
      ∃ fin : ImportState,
        rows.foldlM (fun s r => (prepXlLegacy r).map (masterStep s)) (initState db) =
          Except.ok fin ∧
        (importXlLegacy db rows).1 = fin.store ∧ st = statsOf fin) ∧
    (∀ (db : Store) (rows : List XlNewRow) (e : String),
      (importXlNew db rows).2 = Except.error e → (importXlNew db rows).1 = db) := by
  refine ⟨?_, ?_, ?_⟩
  · intro db rows e h
    unfold importXlLegacy at h ⊢
    cases hf : rows.foldlM (fun s r => (prepXlLegacy r).map (masterStep s)) (initState db) with
    | ok fin => rw [hf] at h; exact Except.noConfusion h
    | error e2 => rfl
  · intro db rows st h
    unfold importXlLegacy at h ⊢
    cases hf : rows.foldlM (fun s r => (prepXlLegacy r).map (masterStep s)) (initState db) with
    | ok fin =>
      rw [hf] at h
      exact ⟨fin, rfl, rfl, (Except.ok.inj h).symm⟩
    | error e2 => rw [hf] at h; exact Except.noConfusion h
  · intro db rows e h
    unfold importXlNew at h ⊢
    cases hf : rows.foldlM (fun s r => (prepXlNew r).map (masterStep s)) (initState db) with
    | ok fin => rw [hf] at h; exact Except.noConfusion h
    | error e2 => rfl

/-- Witness for C8: a two-row legacy Excel sheet whose first row
creates team, chatter, performance and shift rows and whose second
row has an unparseable date fails as a whole and leaves the visible
store empty, while importing the first row alone visibly changes the
store. -/
theorem claim_C8_import_atomicity_witness :
    (let good : XlLegacyRow :=
      { team_name := Cell.str "T", chatter_name := Cell.str "Ann",
        sched_hours := Cell.num 8, actual_hours := Cell.none,
        date := Cell.date ⟨2025, 1, 31⟩, day := Cell.none, sales := Cell.num 10,
        sold := Cell.none, retention := Cell.none, unlock := Cell.none,
        total := Cell.none, sph := Cell.none, art := Cell.none,
        golden_ratio := Cell.none, hinge_top_up := Cell.none, tricks_tsf := Cell.none,
        remarks := Cell.none }
     let bad : XlLegacyRow :=
      { good with date := Cell.str "31/01/2025" }
     (importXlLegacy emptyStore [good, bad]).1 = emptyStore ∧
      (importXlLegacy emptyStore [good, bad]).2 =
        Except.error (dateErrMsg "31/01/2025") ∧
      (importXlLegacy emptyStore [good]).1 ≠ emptyStore) := by
  intro good bad
  refine ⟨?_, rfl, by decide⟩
  exact claim_C8_import_atomicity.1 emptyStore [good, bad] (dateErrMsg "31/01/2025") rfl

/-! ## List lemmas for the import invariants -/

theorem find?_append_some {p : α → Bool} {l : List α} {a : α} (h : l.find? p = some a)
    (l2 : List α) : (l ++ l2).find? p = some a := by
  induction l with
  | nil => cases h
  | cons x l ih =>
    by_cases hx : p x
    · rw [List.find?_cons_of_pos _ hx] at h
      rw [List.cons_append, List.find?_cons_of_pos _ hx]
      exact h
    · rw [List.find?_cons_of_neg _ (by simpa using hx)] at h
      rw [List.cons_append, List.find?_cons_of_neg _ (by simpa using hx)]
      exact ih h

theorem find?_append_none {p : α → Bool} {l : List α} (h : l.find? p = Option.none)
    (l2 : List α) : (l ++ l2).find? p = l2.find? p := by
  induction l with
  | nil => rfl
  | cons x l ih =>
    by_cases hx : p x
    · rw [List.find?_cons_of_pos _ hx] at h
      cases h
    · rw [List.find?_cons_of_neg _ (by simpa using hx)] at h
      rw [List.cons_append, List.find?_cons_of_neg _ (by simpa using hx)]
      exact ih h

theorem updateFirst_length (p : α → Bool) (f : α → α) (l : List α) :
    (updateFirst p f l).length = l.length := by
  induction l with
  | nil => rfl
  | cons x l ih =>
    by_cases hx : p x <;> simp [updateFirst, hx, ih]

theorem updateFirst_eq_self {p : α → Bool} {f : α → α} {l : List α} {c : α}
    (h : l.find? p = some c) (hf : f c = c) : updateFirst p f l = l := by
  induction l with
  | nil => rfl
  | cons x l ih =>
    by_cases hx : p x
    · rw [List.find?_cons_of_pos _ hx] at h
      cases h
      simp [updateFirst, hx, hf]
    · rw [List.find?_cons_of_neg _ (by simpa using hx)] at h
      simp [updateFirst, hx, ih h]

theorem find?_updateFirst_self {p : α → Bool} {f : α → α} {l : List α} {c : α}
    (h : l.find? p = some c) (hf : p (f c) = true) :
    (updateFirst p f l).find? p = some (f c) := by
  induction l with
  | nil => cases h
  | cons x l ih =>
    by_cases hx : p x
    · rw [List.find?_cons_of_pos _ hx] at h
      cases h
      simp [updateFirst, hx, List.find?_cons_of_pos _ hf]
    · rw [List.find?_cons_of_neg _ (by simpa using hx)] at h
      simp [updateFirst, hx, List.find?_cons_of_neg _ (by simpa using hx), ih h]

theorem find?_updateFirst_other {p q : α → Bool} {f : α → α} {l : List α} {c : α}
    (h : l.find? q = some c) (hq : ∀ a, q (f a) = q a) :
    ∃ c2, (updateFirst p f l).find? q = some c2 ∧ (c2 = c ∨ c2 = f c) := by
  induction l with
  | nil => cases h
  | cons x l ih =>
    by_cases hpx : p x
    · simp only [updateFirst, if_pos hpx]
      by_cases hqx : q x
      · rw [List.find?_cons_of_pos _ hqx] at h
        cases h
        refine ⟨f c, ?_, Or.inr rfl⟩
        rw [List.find?_cons_of_pos _ (by rw [hq]; exact hqx)]
      · rw [List.find?_cons_of_neg _ (by simpa using hqx)] at h
        refine ⟨c, ?_, Or.inl rfl⟩
        rw [List.find?_cons_of_neg _ (by rw [hq]; simpa using hqx)]
        exact h
    · simp only [updateFirst, if_neg hpx]
      by_cases hqx : q x
      · rw [List.find?_cons_of_pos _ hqx] at h
        cases h
        exact ⟨c, by rw [List.find?_cons_of_pos _ hqx], Or.inl rfl⟩
      · rw [List.find?_cons_of_neg _ (by simpa using hqx)] at h
        obtain ⟨c2, h2, h3⟩ := ih h
        refine ⟨c2, ?_, h3⟩
        rw [List.find?_cons_of_neg _ (by simpa using hqx)]
        exact h2

/-! ## Frame lemmas: each upsert touches only its own table -/

theorem upsert_team_frame (db : Store) (tn : Option String) :
    (upsert_team db tn).1.chatters = db.chatters ∧
    (upsert_team db tn).1.perfs = db.perfs ∧
    (upsert_team db tn).1.shifts = db.shifts ∧
    (upsert_team db tn).1.next_chatter_id = db.next_chatter_id := by
  unfold upsert_team
  cases tn with
  | none => exact ⟨rfl, rfl, rfl, rfl⟩
  | some n =>
    dsimp only
    by_cases hn : n = ""
    · rw [if_pos hn]
      exact ⟨rfl, rfl, rfl, rfl⟩
    · rw [if_neg hn]
      cases findTeam db n <;> exact ⟨rfl, rfl, rfl, rfl⟩

theorem upsert_chatter_frame (db : Store) (n : String) (tid : Option Nat) :
    (upsert_chatter db n tid).1.teams = db.teams ∧
    (upsert_chatter db n tid).1.perfs = db.perfs ∧
    (upsert_chatter db n tid).1.shifts = db.shifts ∧
    (upsert_chatter db n tid).1.next_team_id = db.next_team_id := by
  unfold upsert_chatter
  cases findChatter db n with
  | none => exact ⟨rfl, rfl, rfl, rfl⟩
  | some c =>
    dsimp only
    by_cases hc : teamTruthy tid = true ∧ c.team_id ≠ tid
    · rw [if_pos hc]
      exact ⟨rfl, rfl, rfl, rfl⟩
    · rw [if_neg hc]
      exact ⟨rfl, rfl, rfl, rfl⟩

theorem upsert_performance_frame (db : Store) (cid : Nat) (tid : Option Nat) (dt : YMD)
    (row : RowDict) :
    (upsert_performance db cid tid dt row).1.teams = db.teams ∧
    (upsert_performance db cid tid dt row).1.chatters = db.chatters ∧
    (upsert_performance db cid tid dt row).1.shifts = db.shifts ∧
    (upsert_performance db cid tid dt row).1.next_team_id = db.next_team_id ∧
    (upsert_performance db cid tid dt row).1.next_chatter_id = db.next_chatter_id := by
  unfold upsert_performance
  cases findPerf db cid dt <;> exact ⟨rfl, rfl, rfl, rfl, rfl⟩

theorem upsert_shift_frame (db : Store) (cid : Nat) (tid : Option Nat) (dt : YMD)
    (row : RowDict) :
    (upsert_shift db cid tid dt row).1.teams = db.teams ∧
    (upsert_shift db cid tid dt row).1.chatters = db.chatters ∧
    (upsert_shift db cid tid dt row).1.perfs = db.perfs ∧
    (upsert_shift db cid tid dt row).1.next_team_id = db.next_team_id ∧
    (upsert_shift db cid tid dt row).1.next_chatter_id = db.next_chatter_id := by
  unfold upsert_shift
  by_cases he : to_float row.sched_hours = Option.none ∧ to_float row.actual_hours = Option.none ∧
      remarksOf row = Cell.none ∧ labelOf row = Cell.none
  · rw [if_pos he]
    exact ⟨rfl, rfl, rfl, rfl, rfl⟩
  · rw [if_neg he]
    cases findShift db cid dt <;> exact ⟨rfl, rfl, rfl, rfl, rfl⟩

theorem findTeam_ext {db db2 : Store} (h : db.teams = db2.teams) (n : String) :
    findTeam db n = findTeam db2 n := by
  unfold findTeam
  rw [h]

theorem findChatter_ext {db db2 : Store} (h : db.chatters = db2.chatters) (n : String) :
    findChatter db n = findChatter db2 n := by
  unfold findChatter
  rw [h]

theorem findPerf_ext {db db2 : Store} (h : db.perfs = db2.perfs) (cid : Nat) (dt : YMD) :
    findPerf db cid dt = findPerf db2 cid dt := by
  unfold findPerf
  rw [h]

theorem findShift_ext {db db2 : Store} (h : db.shifts = db2.shifts) (cid : Nat) (dt : YMD) :
    findShift db cid dt = findShift db2 cid dt := by
  unfold findShift
  rw [h]

/-! ## Monotone evolution of the store under import steps -/

theorem perfLe_refl (p : PerformanceDaily) : PerfLe p p := by
  constructor <;> exact fun h => h

theorem perfLe_trans {p q r : PerformanceDaily} (h1 : PerfLe p q) (h2 : PerfLe q r) :
    PerfLe p r :=
  ⟨fun h => h2.sales (h1.sales h), fun h => h2.sold (h1.sold h),
    fun h => h2.retention (h1.retention h), fun h => h2.unlock_c (h1.unlock_c h),
    fun h => h2.unlock_r (h1.unlock_r h), fun h => h2.total (h1.total h),
    fun h => h2.sph_c (h1.sph_c h), fun h => h2.golden (h1.golden h),
    fun h => h2.hinge (h1.hinge h), fun h => h2.tricks (h1.tricks h),
    fun h => h2.art_c (h1.art_c h), fun h => h2.team (h1.team h)⟩

theorem shiftLe_refl (s : Shift) : ShiftLe s s := by
  constructor <;> exact fun h => h

theorem shiftLe_trans {s t u : Shift} (h1 : ShiftLe s t) (h2 : ShiftLe t u) : ShiftLe s u :=
  ⟨fun h => h2.sched (h1.sched h), fun h => h2.act (h1.act h), fun h => h2.lab (h1.lab h),
    fun h => h2.team (h1.team h)⟩

theorem fillPerf_perfLe (tid : Option Nat) (pl : PerfPayload) (art : Option Nat)
    (p : PerformanceDaily) : PerfLe p (fillPerf tid pl art p).1 := by
  refine ⟨fun h => fillOpt_fst_ne_none _ _ h, fun h => fillOpt_fst_ne_none _ _ h,
    fun h => fillOpt_fst_ne_none _ _ h, fun h => fillOpt_fst_ne_none _ _ h,
    fun h => fillOpt_fst_ne_none _ _ h, fun h => fillOpt_fst_ne_none _ _ h,
    fun h => fillOpt_fst_ne_none _ _ h, fun h => fillOpt_fst_ne_none _ _ h,
    fun h => fillOpt_fst_ne_none _ _ h, fun h => fillOpt_fst_ne_none _ _ h,
    fun h => fillOpt_fst_ne_none _ _ h, ?_⟩
  intro hg
  show goodTeam (if teamTruthy tid = true ∧ (p.team_id = Option.none ∨ p.team_id = some 0) then
    ((tid, true) : Option Nat × Bool) else (p.team_id, false)).1
  by_cases hc : teamTruthy tid = true ∧ (p.team_id = Option.none ∨ p.team_id = some 0)
  · exact absurd hc.2 (by rintro (h | h); exacts [hg.1 h, hg.2 h])
  · rw [if_neg hc]
    exact hg

theorem fillShift_shiftLe (tid : Option Nat) (scheduled actual : Option Rat)
    (remarks shift_label : Cell) (s : Shift) :
    ShiftLe s (fillShift tid scheduled actual remarks shift_label s).1 := by
  refine ⟨fun h => fillOpt_fst_ne_none _ _ h, fun h => fillOpt_fst_ne_none _ _ h, ?_, ?_⟩
  · intro h
    show (if shift_label ≠ Cell.none ∧ s.shift_day.truthy = false then
        ((shift_label, true) : Cell × Bool) else (s.shift_day, false)).1.truthy = true
    rw [if_neg (by rintro ⟨_, hf⟩; rw [h] at hf; exact Bool.noConfusion hf)]
    exact h
  · intro hg
    show goodTeam (if teamTruthy tid = true ∧ (s.team_id = Option.none ∨ s.team_id = some 0) then
      ((tid, true) : Option Nat × Bool) else (s.team_id, false)).1
    by_cases hc : teamTruthy tid = true ∧ (s.team_id = Option.none ∨ s.team_id = some 0)
    · exact absurd hc.2 (by rintro (h | h); exacts [hg.1 h, hg.2 h])
    · rw [if_neg hc]
      exact hg

theorem storeMono_refl (db : Store) : StoreMono db db :=
  ⟨fun _ _ h => h, fun _ c h => ⟨c, h, rfl⟩, fun _ _ p h => ⟨p, h, perfLe_refl p⟩,
    fun _ _ s h => ⟨s, h, shiftLe_refl s⟩⟩

theorem storeMono_trans {db1 db2 db3 : Store} (h1 : StoreMono db1 db2)
    (h2 : StoreMono db2 db3) : StoreMono db1 db3 := by
  refine ⟨fun n t h => h2.team n t (h1.team n t h), ?_, ?_, ?_⟩
  · intro n c h
    obtain ⟨c2, hc2, hid2⟩ := h1.chatter n c h
    obtain ⟨c3, hc3, hid3⟩ := h2.chatter n c2 hc2
    exact ⟨c3, hc3, hid3.trans hid2⟩
  · intro cid dt p h
    obtain ⟨q, hq, hle⟩ := h1.perf cid dt p h
    obtain ⟨r, hr, hle2⟩ := h2.perf cid dt q hq
    exact ⟨r, hr, perfLe_trans hle hle2⟩
  · intro cid dt s h
    obtain ⟨t2, ht2, hle⟩ := h1.shift cid dt s h
    obtain ⟨t3, ht3, hle2⟩ := h2.shift cid dt t2 ht2
    exact ⟨t3, ht3, shiftLe_trans hle hle2⟩

theorem upsert_team_mono (db : Store) (tn : Option String) :
    StoreMono db (upsert_team db tn).1 := by
  unfold upsert_team
  cases tn with
  | none => exact storeMono_refl db
  | some n =>
    dsimp only
    by_cases hn : n = ""
    · rw [if_pos hn]
      exact storeMono_refl db
    · rw [if_neg hn]
      cases findTeam db n with
      | some t => exact storeMono_refl db
      | none =>
        refine ⟨?_, fun n2 c h => ⟨c, h, rfl⟩, fun cid dt p h => ⟨p, h, perfLe_refl p⟩,
          fun cid dt s h => ⟨s, h, shiftLe_refl s⟩⟩
        intro n2 t h
        exact find?_append_some h _

theorem upsert_chatter_mono (db : Store) (n : String) (tid : Option Nat) :
    StoreMono db (upsert_chatter db n tid).1 := by
  unfold upsert_chatter
  cases findChatter db n with
  | none =>
    dsimp only
    refine ⟨fun n2 t h => h, ?_, fun cid dt p h => ⟨p, h, perfLe_refl p⟩,
      fun cid dt s h => ⟨s, h, shiftLe_refl s⟩⟩
    intro n2 c h
    exact ⟨c, find?_append_some h _, rfl⟩
  | some c =>
    dsimp only
    by_cases hc : teamTruthy tid = true ∧ c.team_id ≠ tid
    · rw [if_pos hc]
      refine ⟨fun n2 t h => h, ?_, fun cid dt p h => ⟨p, h, perfLe_refl p⟩,
        fun cid dt s h => ⟨s, h, shiftLe_refl s⟩⟩
      intro n2 c2 h
      obtain ⟨c3, h3, hor⟩ := find?_updateFirst_other (p := fun x => x.name == n)
        (f := fun x => { x with team_id := tid }) h (fun a => rfl)
      refine ⟨c3, h3, ?_⟩
      rcases hor with h4 | h4 <;> rw [h4]
    · rw [if_neg hc]
      exact storeMono_refl db

theorem upsert_performance_mono (db : Store) (cid : Nat) (tid : Option Nat) (dt : YMD)
    (row : RowDict) : StoreMono db (upsert_performance db cid tid dt row).1 := by
  unfold upsert_performance
  cases findPerf db cid dt with
  | some existing =>
    dsimp only
    refine ⟨fun n t h => h, fun n c h => ⟨c, h, rfl⟩, ?_,
      fun cid2 dt2 s h => ⟨s, h, shiftLe_refl s⟩⟩
    intro cid2 dt2 p h
    obtain ⟨p2, h2, hor⟩ := find?_updateFirst_other
      (p := fun x => x.chatter_id == cid && x.shift_date == dt)
      (f := fun x => (fillPerf tid (payloadOf row) (parse_art_interval row.art) x).1)
      h (fun a => rfl)
    refine ⟨p2, h2, ?_⟩
    rcases hor with h4 | h4 <;> rw [h4]
    · exact perfLe_refl p
    · exact fillPerf_perfLe _ _ _ p
  | none =>
    dsimp only
    refine ⟨fun n t h => h, fun n c h => ⟨c, h, rfl⟩, ?_,
      fun cid2 dt2 s h => ⟨s, h, shiftLe_refl s⟩⟩
    intro cid2 dt2 p h
    exact ⟨p, find?_append_some h _, perfLe_refl p⟩

theorem upsert_shift_mono (db : Store) (cid : Nat) (tid : Option Nat) (dt : YMD)
    (row : RowDict) : StoreMono db (upsert_shift db cid tid dt row).1 := by
  unfold upsert_shift
  by_cases he : to_float row.sched_hours = Option.none ∧ to_float row.actual_hours = Option.none ∧
      remarksOf row = Cell.none ∧ labelOf row = Cell.none
  · rw [if_pos he]
    exact storeMono_refl db
  · rw [if_neg he]
    cases findShift db cid dt with
    | some existing =>
      dsimp only
      refine ⟨fun n t h => h, fun n c h => ⟨c, h, rfl⟩,
        fun cid2 dt2 p h => ⟨p, h, perfLe_refl p⟩, ?_⟩
      intro cid2 dt2 s h
      obtain ⟨s2, h2, hor⟩ := find?_updateFirst_other
        (p := fun x => x.chatter_id == cid && x.shift_date == dt)
        (f := fun x => (fillShift tid (to_float row.sched_hours) (to_float row.actual_hours)
          (remarksOf row) (labelOf row) x).1)
        h (fun a => rfl)
      refine ⟨s2, h2, ?_⟩
      rcases hor with h4 | h4 <;> rw [h4]
      · exact shiftLe_refl s
      · exact fillShift_shiftLe _ _ _ _ _ s
    | none =>
      dsimp only
      refine ⟨fun n t h => h, fun n c h => ⟨c, h, rfl⟩,
        fun cid2 dt2 p h => ⟨p, h, perfLe_refl p⟩, ?_⟩
      intro cid2 dt2 s h
      exact ⟨s, find?_append_some h _, shiftLe_refl s⟩

theorem coreRow_mono (st : ImportState) (pr : PRow) :
    StoreMono st.store (coreRow st pr).store := by
  have m1 : StoreMono st.store (upsert_team st.store pr.team_name).1 :=
    upsert_team_mono _ _
  have m2 : StoreMono (upsert_team st.store pr.team_name).1
      (upsert_chatter (upsert_team st.store pr.team_name).1 pr.chatter_name
        (upsert_team st.store pr.team_name).2).1 :=
    upsert_chatter_mono _ _ _
  have m3 : StoreMono
      (upsert_chatter (upsert_team st.store pr.team_name).1 pr.chatter_name
        (upsert_team st.store pr.team_name).2).1
      (upsert_performance
        (upsert_chatter (upsert_team st.store pr.team_name).1 pr.chatter_name
          (upsert_team st.store pr.team_name).2).1
        (upsert_chatter (upsert_team st.store pr.team_name).1 pr.chatter_name
          (upsert_team st.store pr.team_name).2).2
        (upsert_team st.store pr.team_name).2 pr.dt pr.row).1 :=
    upsert_performance_mono _ _ _ _ _
  have m12 := storeMono_trans m1 (storeMono_trans m2 m3)
  unfold coreRow
  dsimp only
  by_cases ha : pr.attempted = true
  · rw [if_pos ha]
    exact storeMono_trans m12 (upsert_shift_mono _ _ _ _ _)
  · rw [if_neg ha]
    exact m12

theorem masterStep_mono (st : ImportState) (pr? : Option PRow) :
    StoreMono st.store (masterStep st pr?).store := by
  cases pr? with
  | none => exact storeMono_refl st.store
  | some pr => exact coreRow_mono st pr

theorem foldl_masterStep_mono (prs : List (Option PRow)) (st : ImportState) :
    StoreMono st.store (prs.foldl masterStep st).store := by
  induction prs generalizing st with
  | nil => exact storeMono_refl st.store
  | cons x l ih =>
    exact storeMono_trans (masterStep_mono st x) (ih (masterStep st x))

/-! ## Saturation: what a processed row guarantees -/

theorem teamTruthy_good {o : Option Nat} (h : teamTruthy o = true) : goodTeam o := by
  cases o with
  | none => simp [teamTruthy] at h
  | some n =>
    simp only [teamTruthy, decide_eq_true_eq] at h
    exact ⟨fun hc => Option.noConfusion hc, fun hc => h (Option.some.inj hc)⟩

theorem fillOpt_fst_of_v_ne (cur v : Option α) (h : v ≠ Option.none) :
    (fillOpt cur v).1 ≠ Option.none := by
  cases v <;> cases cur <;> simp_all [fillOpt]

theorem fillOpt_noop (cur v : Option α) (h : v ≠ Option.none → cur ≠ Option.none) :
    fillOpt cur v = (cur, false) := by
  cases v with
  | none => rfl
  | some x =>
    cases cur with
    | none => exact absurd rfl (h (fun hc => Option.noConfusion hc))
    | some y => rfl

theorem perfTeamFill_good {tid : Option Nat} {cur : Option Nat} (htr : teamTruthy tid = true) :
    goodTeam (if teamTruthy tid = true ∧ (cur = Option.none ∨ cur = some 0) then
      ((tid, true) : Option Nat × Bool) else (cur, false)).1 := by
  by_cases hc : teamTruthy tid = true ∧ (cur = Option.none ∨ cur = some 0)
  · rw [if_pos hc]
    exact teamTruthy_good htr
  · rw [if_neg hc]
    have h2 : ¬(cur = Option.none ∨ cur = some 0) := fun h => hc ⟨htr, h⟩
    push_neg at h2
    exact ⟨h2.1, h2.2⟩

theorem fillPerf_covers (tid : Option Nat) (pl : PerfPayload) (art : Option Nat)
    (p : PerformanceDaily) : PerfCovers pl art tid (fillPerf tid pl art p).1 := by
  refine ⟨fun h => fillOpt_fst_of_v_ne _ _ h, fun h => fillOpt_fst_of_v_ne _ _ h,
    fun h => fillOpt_fst_of_v_ne _ _ h, fun h => fillOpt_fst_of_v_ne _ _ h,
    fun h => fillOpt_fst_of_v_ne _ _ h, fun h => fillOpt_fst_of_v_ne _ _ h,
    fun h => fillOpt_fst_of_v_ne _ _ h, fun h => fillOpt_fst_of_v_ne _ _ h,
    fun h => fillOpt_fst_of_v_ne _ _ h, fun h => fillOpt_fst_of_v_ne _ _ h,
    fun h => fillOpt_fst_of_v_ne _ _ h, fun htr => perfTeamFill_good htr⟩

theorem labelOf_truthy (row : RowDict) (h : labelOf row ≠ Cell.none) :
    (labelOf row).truthy = true := by
  unfold labelOf at h ⊢
  by_cases hs : (if row.day.truthy = true then row.day else row.shift).truthy = true
  · rw [if_pos hs]
    exact hs
  · rw [if_neg hs] at h
    exact absurd rfl h

theorem fillShift_covers (tid : Option Nat) (sched act : Option Rat)
    (remarks shift_label : Cell) (s : Shift)
    (hlab : shift_label ≠ Cell.none → shift_label.truthy = true) :
    ShiftCovers sched act shift_label tid
      (fillShift tid sched act remarks shift_label s).1 := by
  refine ⟨fun h => fillOpt_fst_of_v_ne _ _ h, fun h => fillOpt_fst_of_v_ne _ _ h, ?_,
    fun htr => perfTeamFill_good htr⟩
  intro hne
  show (if shift_label ≠ Cell.none ∧ s.shift_day.truthy = false then
      ((shift_label, true) : Cell × Bool) else (s.shift_day, false)).1.truthy = true
  by_cases hc : shift_label ≠ Cell.none ∧ s.shift_day.truthy = false
  · rw [if_pos hc]
    exact hlab hne
  · rw [if_neg hc]
    by_cases ht : s.shift_day.truthy = true
    · exact ht
    · exact absurd ⟨hne, by simpa using ht⟩ hc

theorem fillPerf_noop (tid : Option Nat) (pl : PerfPayload) (art : Option Nat)
    (p : PerformanceDaily) (hc : PerfCovers pl art tid p) :
    fillPerf tid pl art p = (p, false) := by
  have e0 : (if teamTruthy tid = true ∧ (p.team_id = Option.none ∨ p.team_id = some 0) then
      ((tid, true) : Option Nat × Bool) else (p.team_id, false)) = (p.team_id, false) := by
    rw [if_neg]
    rintro ⟨htr, hz⟩
    have := hc.team htr
    rcases hz with h | h
    · exact this.1 h
    · exact this.2 h
  unfold fillPerf
  rw [e0, fillOpt_noop _ _ hc.sales, fillOpt_noop _ _ hc.sold, fillOpt_noop _ _ hc.retention,
    fillOpt_noop _ _ hc.unlock_c, fillOpt_noop _ _ hc.unlock_r, fillOpt_noop _ _ hc.total,
    fillOpt_noop _ _ hc.sph_c, fillOpt_noop _ _ hc.golden, fillOpt_noop _ _ hc.hinge,
    fillOpt_noop _ _ hc.tricks, fillOpt_noop _ _ hc.art_c]
  rfl

theorem perfCovers_mono {pl : PerfPayload} {art tid : Option Nat} {p q : PerformanceDaily}
    (hc : PerfCovers pl art tid p) (hle : PerfLe p q) : PerfCovers pl art tid q :=
  ⟨fun h => hle.sales (hc.sales h), fun h => hle.sold (hc.sold h),
    fun h => hle.retention (hc.retention h), fun h => hle.unlock_c (hc.unlock_c h),
    fun h => hle.unlock_r (hc.unlock_r h), fun h => hle.total (hc.total h),
    fun h => hle.sph_c (hc.sph_c h), fun h => hle.golden (hc.golden h),
    fun h => hle.hinge (hc.hinge h), fun h => hle.tricks (hc.tricks h),
    fun h => hle.art_c (hc.art_c h), fun h => hle.team (hc.team h)⟩

theorem shiftCovers_mono {sched act : Option Rat} {label : Cell} {tid : Option Nat}
    {s t : Shift} (hc : ShiftCovers sched act label tid s) (hle : ShiftLe s t) :
    ShiftCovers sched act label tid t :=
  ⟨fun h => hle.sched (hc.sched h), fun h => hle.act (hc.act h), fun h => hle.lab (hc.lab h),
    fun h => hle.team (hc.team h)⟩

theorem teamIdLookup_mono {db db2 : Store} (hm : StoreMono db db2) (tn : Option String)
    (hex : ∀ n, tn = some n → n ≠ "" → ∃ t, findTeam db n = some t) :
    teamIdLookup db2 tn = teamIdLookup db tn := by
  cases tn with
  | none => rfl
  | some n =>
    unfold teamIdLookup
    dsimp only
    by_cases hn : n = ""
    · rw [if_pos hn, if_pos hn]
    · rw [if_neg hn, if_neg hn]
      obtain ⟨t, ht⟩ := hex n rfl hn
      rw [ht, hm.team n t ht]

theorem teamIdLookup_ext {db db2 : Store} (h : db.teams = db2.teams) (tn : Option String) :
    teamIdLookup db tn = teamIdLookup db2 tn := by
  cases tn with
  | none => rfl
  | some n =>
    unfold teamIdLookup
    dsimp only
    rw [findTeam_ext h]

theorem rowSat_mono {db db2 : Store} {pr : PRow} (hs : RowSat db pr)
    (hm : StoreMono db db2) : RowSat db2 pr := by
  have hlk : teamIdLookup db2 pr.team_name = teamIdLookup db pr.team_name :=
    teamIdLookup_mono hm pr.team_name hs.team_ok
  obtain ⟨c, hc⟩ := hs.chatter_ok
  obtain ⟨c2b, hc2b, hid⟩ := hm.chatter _ c hc
  refine ⟨?_, ⟨c2b, hc2b⟩, ?_, ?_⟩
  · intro n h hne
    obtain ⟨t, ht⟩ := hs.team_ok n h hne
    exact ⟨t, hm.team n t ht⟩
  · intro c2 hc2
    have hceq : c2b = c2 := by
      rw [hc2b] at hc2
      exact Option.some.inj hc2
    subst hceq
    obtain ⟨p, hp, hcov⟩ := hs.perf_ok c hc
    obtain ⟨q, hq, hle⟩ := hm.perf c.id pr.dt p hp
    rw [hid]
    exact ⟨q, hq, by rw [hlk]; exact perfCovers_mono hcov hle⟩
  · intro ha c2 hc2
    have hceq : c2b = c2 := by
      rw [hc2b] at hc2
      exact Option.some.inj hc2
    subst hceq
    obtain ⟨s, hp, hcov⟩ := hs.shift_ok ha c hc
    obtain ⟨t2, hq, hle⟩ := hm.shift c.id pr.dt s hp
    rw [hid]
    exact ⟨t2, hq, by rw [hlk]; exact shiftCovers_mono hcov hle⟩

/-! ## What each upsert establishes and how it behaves on a second run -/

theorem upsert_team_spec (db : Store) (tn : Option String) :
    (upsert_team db tn).2 = teamIdLookup (upsert_team db tn).1 tn ∧
    (∀ n, tn = some n → n ≠ "" → ∃ t, findTeam (upsert_team db tn).1 n = some t) := by
  unfold upsert_team
  cases tn with
  | none => exact ⟨rfl, fun n h => Option.noConfusion h⟩
  | some n =>
    dsimp only
    by_cases hn : n = ""
    · rw [if_pos hn]
      constructor
      · unfold teamIdLookup
        dsimp only
        rw [if_pos hn]
      · intro n2 h hne
        cases h
        exact absurd hn hne
    · rw [if_neg hn]
      cases hf : findTeam db n with
      | some t =>
        constructor
        · unfold teamIdLookup
          dsimp only
          rw [if_neg hn, hf]
          rfl
        · intro n2 h hne
          cases h
          exact ⟨t, hf⟩
      | none =>
        have hfind : findTeam
            { db with
                teams := db.teams ++ [⟨db.next_team_id, n⟩],
                next_team_id := db.next_team_id + 1 } n =
            some ⟨db.next_team_id, n⟩ := by
          unfold findTeam at hf ⊢
          rw [find?_append_none hf]
          simp [List.find?]
        constructor
        · unfold teamIdLookup
          dsimp only
          rw [if_neg hn, hfind]
          rfl
        · intro n2 h hne
          cases h
          exact ⟨_, hfind⟩

theorem upsert_team_noop (db : Store) (tn : Option String)
    (hex : ∀ n, tn = some n → n ≠ "" → ∃ t, findTeam db n = some t) :
    upsert_team db tn = (db, teamIdLookup db tn) := by
  unfold upsert_team
  cases tn with
  | none => rfl
  | some n =>
    dsimp only
    by_cases hn : n = ""
    · rw [if_pos hn]
      unfold teamIdLookup
      dsimp only
      rw [if_pos hn]
    · rw [if_neg hn]
      obtain ⟨t, ht⟩ := hex n rfl hn
      rw [ht]
      unfold teamIdLookup
      dsimp only
      rw [if_neg hn, ht]
      rfl

theorem upsert_chatter_spec (db : Store) (n : String) (tid : Option Nat) :
    ∃ c, findChatter (upsert_chatter db n tid).1 n = some c ∧
      c.id = (upsert_chatter db n tid).2 := by
  unfold upsert_chatter
  cases hf : findChatter db n with
  | none =>
    dsimp only
    refine ⟨⟨db.next_chatter_id, n, tid⟩, ?_, rfl⟩
    unfold findChatter at hf ⊢
    rw [find?_append_none hf]
    simp [List.find?]
  | some c =>
    dsimp only
    by_cases hc : teamTruthy tid = true ∧ c.team_id ≠ tid
    · rw [if_pos hc]
      refine ⟨{ c with team_id := tid }, ?_, rfl⟩
      have hp : (fun c2 : Chatter => c2.name == n) { c with team_id := tid } = true := by
        have := List.find?_some hf
        simpa using this
      exact find?_updateFirst_self hf hp
    · rw [if_neg hc]
      exact ⟨c, hf, rfl⟩

theorem upsert_chatter_run2 (db : Store) (n : String) (tid : Option Nat) (c : Chatter)
    (hf : findChatter db n = some c) :
    (upsert_chatter db n tid).2 = c.id ∧
    (upsert_chatter db n tid).1.chatters.length = db.chatters.length ∧
    (upsert_chatter db n tid).1.teams = db.teams ∧
    (upsert_chatter db n tid).1.perfs = db.perfs ∧
    (upsert_chatter db n tid).1.shifts = db.shifts := by
  unfold upsert_chatter
  rw [hf]
  dsimp only
  by_cases hc : teamTruthy tid = true ∧ c.team_id ≠ tid
  · rw [if_pos hc]
    exact ⟨rfl, updateFirst_length _ _ _, rfl, rfl, rfl⟩
  · rw [if_neg hc]
    exact ⟨rfl, rfl, rfl, rfl, rfl⟩

theorem upsert_performance_establish (db : Store) (cid : Nat) (tid : Option Nat) (dt : YMD)
    (row : RowDict) :
    ∃ p, findPerf (upsert_performance db cid tid dt row).1 cid dt = some p ∧
      PerfCovers (payloadOf row) (parse_art_interval row.art) tid p := by
  unfold upsert_performance
  cases hf : findPerf db cid dt with
  | some p0 =>
    dsimp only
    refine ⟨(fillPerf tid (payloadOf row) (parse_art_interval row.art) p0).1, ?_,
      fillPerf_covers _ _ _ _⟩
    unfold findPerf at hf ⊢
    refine find?_updateFirst_self hf ?_
    have := List.find?_some hf
    simpa using this
  | none =>
    dsimp only
    refine ⟨
      { chatter_id := cid, team_id := tid, shift_date := dt,
        sales_amount := (payloadOf row).sales_amount, sold_count := (payloadOf row).sold_count,
        retention_count := (payloadOf row).retention_count,
        unlock_count := (payloadOf row).unlock_count,
        unlock_ratio := (payloadOf row).unlock_ratio,
        total_sales := (payloadOf row).total_sales, sph := (payloadOf row).sph,
        golden_ratio := (payloadOf row).golden_ratio,
        hinge_top_up := (payloadOf row).hinge_top_up,
        tricks_tsf := (payloadOf row).tricks_tsf,
        art_interval := parse_art_interval row.art }, ?_, ?_⟩
    · unfold findPerf at hf ⊢
      rw [find?_append_none hf]
      simp [List.find?]
    · refine ⟨fun h => h, fun h => h, fun h => h, fun h => h, fun h => h, fun h => h,
        fun h => h, fun h => h, fun h => h, fun h => h, fun h => h,
        fun htr => teamTruthy_good htr⟩

theorem upsert_performance_run2 (db : Store) (cid : Nat) (tid : Option Nat) (dt : YMD)
    (row : RowDict) (p : PerformanceDaily) (hf : findPerf db cid dt = some p)
    (hc : PerfCovers (payloadOf row) (parse_art_interval row.art) tid p) :
    upsert_performance db cid tid dt row = (db, UpsertStatus.skipped) := by
  unfold upsert_performance
  rw [hf]
  dsimp only
  have hnoop := fillPerf_noop tid (payloadOf row) (parse_art_interval row.art) p hc
  have hupd : updateFirst (fun x => x.chatter_id == cid && x.shift_date == dt)
      (fun x => (fillPerf tid (payloadOf row) (parse_art_interval row.art) x).1)
      db.perfs = db.perfs := by
    refine updateFirst_eq_self hf ?_
    rw [hnoop]
  rw [hnoop, hupd]
  rfl

theorem upsert_shift_establish (db : Store) (cid : Nat) (tid : Option Nat) (dt : YMD)
    (row : RowDict)
    (hne : ¬(to_float row.sched_hours = Option.none ∧ to_float row.actual_hours = Option.none ∧
      remarksOf row = Cell.none ∧ labelOf row = Cell.none)) :
    ∃ s, findShift (upsert_shift db cid tid dt row).1 cid dt = some s ∧
      ShiftCovers (to_float row.sched_hours) (to_float row.actual_hours) (labelOf row) tid s := by
  unfold upsert_shift
  rw [if_neg hne]
  cases hf : findShift db cid dt with
  | some s0 =>
    dsimp only
    refine ⟨(fillShift tid (to_float row.sched_hours) (to_float row.actual_hours)
      (remarksOf row) (labelOf row) s0).1, ?_, fillShift_covers _ _ _ _ _ _ (labelOf_truthy row)⟩
    unfold findShift at hf ⊢
    refine find?_updateFirst_self hf ?_
    have := List.find?_some hf
    simpa using this
  | none =>
    dsimp only
    refine ⟨
      { chatter_id := cid, team_id := tid, shift_date := dt,
        shift_day := labelOf row, scheduled_hours := to_float row.sched_hours,
        actual_hours := to_float row.actual_hours, remarks := remarksOf row }, ?_, ?_⟩
    · unfold findShift at hf ⊢
      rw [find?_append_none hf]
      simp [List.find?]
    · exact ⟨fun h => h, fun h => h, fun h => labelOf_truthy row h,
        fun htr => teamTruthy_good htr⟩

theorem upsert_shift_not_created (db : Store) (cid : Nat) (tid : Option Nat) (dt : YMD)
    (row : RowDict) (s : Shift) (hf : findShift db cid dt = some s) :
    (upsert_shift db cid tid dt row).2 ≠ UpsertStatus.created := by
  unfold upsert_shift
  by_cases he : to_float row.sched_hours = Option.none ∧ to_float row.actual_hours = Option.none ∧
      remarksOf row = Cell.none ∧ labelOf row = Cell.none
  · rw [if_pos he]
    exact fun hc => UpsertStatus.noConfusion hc
  · rw [if_neg he, hf]
    dsimp only
    by_cases hr : (fillShift tid (to_float row.sched_hours) (to_float row.actual_hours)
        (remarksOf row) (labelOf row) s).2 = true
    · rw [if_pos hr]
      exact fun hc => UpsertStatus.noConfusion hc
    · rw [if_neg hr]
      exact fun hc => UpsertStatus.noConfusion hc

theorem upsert_shift_frame_shifts_len (db : Store) (cid : Nat) (tid : Option Nat) (dt : YMD)
    (row : RowDict) (s : Shift) (hf : findShift db cid dt = some s) :
    (upsert_shift db cid tid dt row).1.shifts.length = db.shifts.length := by
  unfold upsert_shift
  by_cases he : to_float row.sched_hours = Option.none ∧ to_float row.actual_hours = Option.none ∧
      remarksOf row = Cell.none ∧ labelOf row = Cell.none
  · rw [if_pos he]
  · rw [if_neg he, hf]
    dsimp only
    exact updateFirst_length _ _ _

/-! ## A processed row is saturated in the store it leaves behind -/

theorem rowSat_of_steps (pr : PRow) (db0 db1 db2 db3 db4 : Store)
    (tid : Option Nat) (cid : Nat)
    (h1 : upsert_team db0 pr.team_name = (db1, tid))
    (h2 : upsert_chatter db1 pr.chatter_name tid = (db2, cid))
    (h3 : (upsert_performance db2 cid tid pr.dt pr.row).1 = db3)
    (h4 : (if pr.attempted then upsert_shift db3 cid tid pr.dt pr.row
        else (db3, UpsertStatus.skipped)).1 = db4)
    (hok : PRowOk pr) : RowSat db4 pr := by
  have hspec := upsert_team_spec db0 pr.team_name
  rw [h1] at hspec
  have htid : tid = teamIdLookup db1 pr.team_name := hspec.1
  have hex1 : ∀ n, pr.team_name = some n → n ≠ "" → ∃ t, findTeam db1 n = some t := hspec.2
  have m2 : StoreMono db1 db2 := by
    have hm := upsert_chatter_mono db1 pr.chatter_name tid
    rw [h2] at hm
    exact hm
  have m3 : StoreMono db2 db3 := by
    have hm := upsert_performance_mono db2 cid tid pr.dt pr.row
    rw [h3] at hm
    exact hm
  have m4 : StoreMono db3 db4 := by
    by_cases ha : pr.attempted = true
    · rw [if_pos ha] at h4
      have hm := upsert_shift_mono db3 cid tid pr.dt pr.row
      rw [h4] at hm
      exact hm
    · rw [if_neg ha] at h4
      have he : db3 = db4 := h4
      rw [← he]
      exact storeMono_refl db3
  have m24 : StoreMono db2 db4 := storeMono_trans m3 m4
  have m14 : StoreMono db1 db4 := storeMono_trans m2 m24
  have hex4 : ∀ n, pr.team_name = some n → n ≠ "" → ∃ t, findTeam db4 n = some t := by
    intro n h hne
    obtain ⟨t, ht⟩ := hex1 n h hne
    exact ⟨t, m14.team n t ht⟩
  have hlk : teamIdLookup db4 pr.team_name = tid := by
    rw [teamIdLookup_mono m14 pr.team_name hex1]
    exact htid.symm
  have hchs := upsert_chatter_spec db1 pr.chatter_name tid
  rw [h2] at hchs
  obtain ⟨c, hc2, hcid⟩ := hchs
  obtain ⟨c4, hc4, hcid4⟩ := m24.chatter _ c hc2
  have hc4id : c4.id = cid := hcid4.trans hcid
  have hpe := upsert_performance_establish db2 cid tid pr.dt pr.row
  rw [h3] at hpe
  obtain ⟨p, hp3, hpcov⟩ := hpe
  refine ⟨hex4, ⟨c4, hc4⟩, ?_, ?_⟩
  · intro c2 hcf
    have hceq : c4 = c2 := by
      rw [hc4] at hcf
      exact Option.some.inj hcf
    subst hceq
    rw [hc4id]
    obtain ⟨q, hq, hle⟩ := m4.perf cid pr.dt p hp3
    rw [hlk]
    exact ⟨q, hq, perfCovers_mono hpcov hle⟩
  · intro ha c2 hcf
    have hceq : c4 = c2 := by
      rw [hc4] at hcf
      exact Option.some.inj hcf
    subst hceq
    rw [hc4id, hlk]
    rw [if_pos ha] at h4
    have hse := upsert_shift_establish db3 cid tid pr.dt pr.row (hok ha)
    rw [h4] at hse
    exact hse

theorem coreRow_establishes (st : ImportState) (pr : PRow) (hok : PRowOk pr) :
    RowSat (coreRow st pr).store pr := by
  refine rowSat_of_steps pr st.store (upsert_team st.store pr.team_name).1
    (upsert_chatter (upsert_team st.store pr.team_name).1 pr.chatter_name
      (upsert_team st.store pr.team_name).2).1
    (upsert_performance
      (upsert_chatter (upsert_team st.store pr.team_name).1 pr.chatter_name
        (upsert_team st.store pr.team_name).2).1
      (upsert_chatter (upsert_team st.store pr.team_name).1 pr.chatter_name
        (upsert_team st.store pr.team_name).2).2
      (upsert_team st.store pr.team_name).2 pr.dt pr.row).1
    (coreRow st pr).store
    (upsert_team st.store pr.team_name).2
    (upsert_chatter (upsert_team st.store pr.team_name).1 pr.chatter_name
      (upsert_team st.store pr.team_name).2).2
    rfl rfl rfl rfl hok

theorem foldl_establishes (prs : List (Option PRow)) (st : ImportState) :
    ∀ pr, some pr ∈ prs → PRowOk pr → RowSat (prs.foldl masterStep st).store pr := by
  induction prs generalizing st with
  | nil =>
    intro pr h
    cases h
  | cons x l ih =>
    intro pr hmem hok
    rcases List.mem_cons.mp hmem with heq | hmem2
    · subst heq
      have h1 : RowSat (coreRow st pr).store pr := coreRow_establishes st pr hok
      have h2 := foldl_masterStep_mono l (coreRow st pr)
      exact rowSat_mono h1 h2
    · exact ih (masterStep st x) pr hmem2 hok

/-! ## A second run over a saturated store creates nothing -/

theorem coreRow_run2 (st : ImportState) (pr : PRow) (hs : RowSat st.store pr)
    (hok : PRowOk pr) :
    (coreRow st pr).perf_records = st.perf_records ∧
    (coreRow st pr).shift_records = st.shift_records ∧
    (coreRow st pr).dups.length = st.dups.length + 1 := by
  have hteam := upsert_team_noop st.store pr.team_name hs.team_ok
  obtain ⟨c, hc⟩ := hs.chatter_ok
  have hch := upsert_chatter_run2 st.store pr.chatter_name
    (teamIdLookup st.store pr.team_name) c hc
  obtain ⟨p, hp, hcov⟩ := hs.perf_ok c hc
  have hfp2 : findPerf (upsert_chatter st.store pr.chatter_name
      (teamIdLookup st.store pr.team_name)).1 c.id pr.dt = some p := by
    rw [findPerf_ext hch.2.2.2.1]
    exact hp
  have hperf := upsert_performance_run2 _ c.id (teamIdLookup st.store pr.team_name)
    pr.dt pr.row p hfp2 hcov
  unfold coreRow
  simp only [hteam, hch.1, hperf, hch.2.1, lt_self_iff_false, if_false]
  by_cases ha : pr.attempted = true
  · simp only [ha, if_true]
    obtain ⟨s, hsf, _⟩ := hs.shift_ok ha c hc
    have hsf2 : findShift (upsert_chatter st.store pr.chatter_name
        (teamIdLookup st.store pr.team_name)).1 c.id pr.dt = some s := by
      rw [findShift_ext hch.2.2.2.2]
      exact hsf
    have hnc := upsert_shift_not_created _ c.id (teamIdLookup st.store pr.team_name)
      pr.dt pr.row s hsf2
    cases hst : (upsert_shift (upsert_chatter st.store pr.chatter_name
        (teamIdLookup st.store pr.team_name)).1 c.id (teamIdLookup st.store pr.team_name)
        pr.dt pr.row).2 with
    | created => exact absurd hst hnc
    | updated => simp [hst]
    | skipped => simp [hst]
  · simp only [ha, if_false]
    simp

theorem foldl_run2 (prs : List (Option PRow)) (st : ImportState)
    (hsat : ∀ pr, some pr ∈ prs → RowSat st.store pr)
    (hok : ∀ pr, some pr ∈ prs → PRowOk pr) :
    (prs.foldl masterStep st).perf_records = st.perf_records ∧
    (prs.foldl masterStep st).shift_records = st.shift_records ∧
    (prs.foldl masterStep st).dups.length = st.dups.length + prs.countP Option.isSome := by
  induction prs generalizing st with
  | nil => simp
  | cons x l ih =>
    cases x with
    | none =>
      have hs2 : ∀ pr, some pr ∈ l → RowSat ({ st with idx := st.idx + 1 } : ImportState).store pr :=
        fun pr h => hsat pr (List.mem_cons_of_mem _ h)
      have hk2 : ∀ pr, some pr ∈ l → PRowOk pr :=
        fun pr h => hok pr (List.mem_cons_of_mem _ h)
      have := ih { st with idx := st.idx + 1 } hs2 hk2
      simp only [List.foldl_cons, masterStep]
      refine ⟨this.1, this.2.1, ?_⟩
      rw [this.2.2]
      simp [List.countP_cons]
    | some pr =>
      have hspr := hsat pr (List.mem_cons_self _ _)
      have hkpr := hok pr (List.mem_cons_self _ _)
      have hstep := coreRow_run2 st pr hspr hkpr
      have hmono := coreRow_mono st pr
      have hs2 : ∀ pr2, some pr2 ∈ l → RowSat (coreRow st pr).store pr2 :=
        fun pr2 h => rowSat_mono (hsat pr2 (List.mem_cons_of_mem _ h)) hmono
      have hk2 : ∀ pr2, some pr2 ∈ l → PRowOk pr2 :=
        fun pr2 h => hok pr2 (List.mem_cons_of_mem _ h)
      have := ih (coreRow st pr) hs2 hk2
      simp only [List.foldl_cons, masterStep]
      refine ⟨this.1.trans hstep.1, this.2.1.trans hstep.2.1, ?_⟩
      rw [this.2.2, hstep.2.2]
      have hcnt : List.countP Option.isSome (some pr :: l) = List.countP Option.isSome l + 1 := by
        simp [List.countP_cons]
      rw [hcnt]
      omega

/-! ## Per-importer glue -/

theorem to_float_cellOfOpt (o : Option Rat) : to_float (cellOfOpt o) = o := by
  cases o <;> rfl

theorem prepCsvLegacy_ok (r : CsvLegacyRow) (pr : PRow) (h : prepCsvLegacy r = some pr) :
    PRowOk pr := by
  unfold prepCsvLegacy at h
  by_cases hc : r.chatter_name = "" ∨ r.date = ""
  · rw [if_pos hc] at h
    exact Option.noConfusion h
  · rw [if_neg hc] at h
    cases hd : parse_date_flexible r.date with
    | none =>
      rw [hd] at h
      exact Option.noConfusion h
    | some dt =>
      rw [hd] at h
      cases h
      intro ha
      rintro ⟨hsn, han, _, _⟩
      rw [Bool.or_eq_true] at ha
      rcases ha with ha | ha
      · exact (Option.isSome_iff_ne_none.mp ha) hsn
      · exact (Option.isSome_iff_ne_none.mp ha) han

theorem isSome_prepCsvLegacy (r : CsvLegacyRow) :
    (prepCsvLegacy r).isSome =
      (!(r.chatter_name == "") && !(r.date == "") &&
        !(parse_date_flexible r.date == Option.none)) := by
  unfold prepCsvLegacy
  by_cases hc : r.chatter_name = "" ∨ r.date = ""
  · rw [if_pos hc]
    rcases hc with hc | hc <;> simp [hc]
  · rw [if_neg hc]
    push_neg at hc
    cases hd : parse_date_flexible r.date <;> simp [hc.1, hc.2, hd]

theorem countP_isSome_prepCsvLegacy (rows : List CsvLegacyRow) (hwf : WfCsvLegacy rows) :
    (rows.map prepCsvLegacy).countP Option.isSome =
      rows.countP (fun r => !(r.chatter_name == "") && !(r.date == "")) := by
  induction rows with
  | nil => rfl
  | cons r l ih =>
    have hr := hwf r (List.mem_cons_self _ _)
    have hl : WfCsvLegacy l := fun r2 h2 => hwf r2 (List.mem_cons_of_mem _ h2)
    simp only [List.map_cons, List.countP_cons, ih hl, isSome_prepCsvLegacy]
    by_cases h1 : r.chatter_name = ""
    · simp [h1]
    · by_cases h2 : r.date = ""
      · simp [h2]
      · have h3 := hr h1 h2
        simp [h1, h2, h3]

/-- Claim C1, legacy CSV part, packaged as a reusable statement over
the shared loop: a second import of the same preprocessed rows over
the store the first import committed creates no performance and no
shift rows and skips every surviving data row. -/
theorem runCore_idempotent (db : Store) (prs : List (Option PRow))
    (hok : ∀ pr, some pr ∈ prs → PRowOk pr) :
    (runCore (runCore db prs).store prs).perf_records = 0 ∧
    (runCore (runCore db prs).store prs).shift_records = 0 ∧
    (runCore (runCore db prs).store prs).dups.length = prs.countP Option.isSome := by
  have hsat : ∀ pr, some pr ∈ prs →
      RowSat (initState (runCore db prs).store).store pr := by
    intro pr hmem
    exact foldl_establishes prs (initState db) pr hmem (hok pr hmem)
  have h := foldl_run2 prs (initState (runCore db prs).store) hsat
    (fun pr hmem => hok pr hmem)
  refine ⟨h.1, h.2.1, ?_⟩
  have h3 : (runCore (runCore db prs).store prs).dups.length =
      (initState (runCore db prs).store).dups.length + prs.countP Option.isSome := h.2.2
  rw [h3]
  simp [initState]

theorem prowOk_of_hours (pr : PRow)
    (hatt : pr.attempted =
      ((to_float pr.row.sched_hours).isSome || (to_float pr.row.actual_hours).isSome)) :
    PRowOk pr := by
  intro ha
  rintro ⟨hsn, han, -, -⟩
  rw [hatt, Bool.or_eq_true] at ha
  rcases ha with ha | ha
  · exact (Option.isSome_iff_ne_none.mp ha) hsn
  · exact (Option.isSome_iff_ne_none.mp ha) han

theorem prowOk_new (sales_amount ur sphv grv worked : Option Rat) (art : Cell)
    (shift_label : Option String)
    (hlab : ∀ t, shift_label = some t → t ≠ "")
    (tn : Option String) (cn : String) (dt : YMD) :
    PRowOk
      { team_name := tn
        chatter_name := cn
        dt := dt
        row := newDict sales_amount ur sphv grv worked art shift_label
        attempted := worked.isSome || shift_label.isSome } := by
  intro ha
  rintro ⟨-, han, -, hl⟩
  rw [Bool.or_eq_true] at ha
  rcases ha with ha | ha
  · have hw : worked = Option.none := (to_float_cellOfOpt worked).symm.trans han
    rw [hw] at ha
    exact absurd ha (by simp)
  · cases hsl : shift_label with
    | none =>
      rw [hsl] at ha
      exact absurd ha (by simp)
    | some t =>
      have ht := hlab t hsl
      rw [hsl] at hl
      unfold labelOf at hl
      simp [newDict, cellOfStrOpt, Cell.truthy, ht] at hl

theorem exceptMap_ok_inv {e2 a2 b2 : Type} (e : Except e2 a2) (f : a2 → b2) (b : b2)
    (h : e.map f = Except.ok b) : ∃ a, e = Except.ok a ∧ f a = b := by
  cases e with
  | error err => exact Except.noConfusion h
  | ok a =>
    have h2 : Except.ok (f a) = Except.ok b := h
    injection h2 with h1
    exact ⟨a, rfl, h1⟩

theorem prepCsvNew_ok (r : CsvNewRow) (pr : PRow) (h : prepCsvNew r = some pr) :
    PRowOk pr := by
  unfold prepCsvNew at h
  dsimp only at h
  repeat' split at h
  all_goals try exact Option.noConfusion h
  all_goals
    rw [Option.some.injEq] at h
    subst h
    refine prowOk_new _ _ _ _ _ _ _ ?_ _ _ _
    intro t ht2
    first
      | exact Option.noConfusion ht2
      | (injection ht2 with h3; rw [← h3]; assumption)

theorem isSome_prepCsvNew (r : CsvNewRow) :
    (prepCsvNew r).isSome =
      (!(String.mk (trimChars r.chatter.data) == "") && !(r.start_date == "") &&
        !(parse_mmddyyyy_only r.start_date == Option.none)) := by
  unfold prepCsvNew
  by_cases hch : String.mk (trimChars r.chatter.data) = ""
  · simp [hch]
  · by_cases hsd : r.start_date = ""
    · simp [hch, hsd]
    · cases hd : parse_mmddyyyy_only r.start_date <;> simp [hch, hsd, hd]

theorem countP_isSome_prepCsvNew (rows : List CsvNewRow) (hwf : WfCsvNew rows) :
    (rows.map prepCsvNew).countP Option.isSome =
      rows.countP (fun r =>
        !(String.mk (trimChars r.chatter.data) == "") && !(r.start_date == "")) := by
  induction rows with
  | nil => rfl
  | cons r l ih =>
    have hr := hwf r (List.mem_cons_self _ _)
    have hl : WfCsvNew l := fun r2 h2 => hwf r2 (List.mem_cons_of_mem _ h2)
    simp only [List.map_cons, List.countP_cons, ih hl, isSome_prepCsvNew]
    by_cases h1 : String.mk (trimChars r.chatter.data) = ""
    · simp [h1]
    · by_cases h2 : r.start_date = ""
      · simp [h2]
      · have h3 := hr h1 h2
        simp [h1, h2, h3]

theorem prepXlLegacy_ok (r : XlLegacyRow) (pr : PRow)
    (h : prepXlLegacy r = Except.ok (some pr)) : PRowOk pr := by
  unfold prepXlLegacy at h
  dsimp only at h
  split at h
  · simp at h
  · obtain ⟨dt, hdt, hfd⟩ := exceptMap_ok_inv _ _ _ h
    simp only [Option.some.injEq] at hfd
    subst hfd
    exact prowOk_of_hours _ rfl

theorem isSome_prepXlLegacy (r : XlLegacyRow) (hok : ∃ o, prepXlLegacy r = Except.ok o) :
    (((prepXlLegacy r).toOption).getD Option.none).isSome =
      !((strippedName r.chatter_name == (Option.none : Option String)) ||
        (strippedName r.chatter_name == some "") || !r.date.truthy) := by
  obtain ⟨o, ho⟩ := hok
  unfold prepXlLegacy at ho ⊢
  dsimp only at ho ⊢
  split at ho
  case isTrue hc =>
    rw [if_pos hc]
    rcases hc with h1 | h1 | h1 <;> simp [Except.toOption, h1]
  case isFalse hc =>
    rw [if_neg hc]
    push_neg at hc
    obtain ⟨h1, h2, h3⟩ := hc
    obtain ⟨dt, hdt, -⟩ := exceptMap_ok_inv _ _ _ ho
    rw [hdt]
    have h3' : r.date.truthy = true := by
      revert h3
      cases r.date.truthy <;> simp
    simp [Except.map, Except.toOption, h1, h2, h3']

theorem countP_isSome_prepXlLegacy (rows : List XlLegacyRow) (hwf : WfXlLegacy rows) :
    (rows.map (fun r => ((prepXlLegacy r).toOption).getD Option.none)).countP Option.isSome =
      rows.countP (fun r =>
        !((strippedName r.chatter_name == (Option.none : Option String)) ||
          (strippedName r.chatter_name == some "") || !r.date.truthy)) := by
  induction rows with
  | nil => rfl
  | cons r l ih =>
    have hr := hwf r (List.mem_cons_self _ _)
    have hl : WfXlLegacy l := fun r2 h2 => hwf r2 (List.mem_cons_of_mem _ h2)
    simp only [List.map_cons, List.countP_cons, ih hl, isSome_prepXlLegacy r hr]

theorem xlNewLabel_ne_empty (c : Cell) (lab : Option String)
    (h : xlNewLabel c = Except.ok lab) : ∀ t, lab = some t → t ≠ "" := by
  unfold xlNewLabel at h
  split at h
  · injection h with h1
    subst h1
    intro t ht
    exact Option.noConfusion ht
  · split at h
    · injection h with h1
      subst h1
      intro t ht
      split at ht
      · exact Option.noConfusion ht
      · injection ht with h3
        rw [← h3]
        assumption
    · exact Except.noConfusion h

theorem prepXlNew_ok (r : XlNewRow) (pr : PRow)
    (h : prepXlNew r = Except.ok (some pr)) : PRowOk pr := by
  unfold prepXlNew at h
  cases hlabv : xlNewLabel r.shift with
  | error e =>
    rw [hlabv] at h
    exact Except.noConfusion h
  | ok lab =>
    rw [hlabv] at h
    have hbind : ∀ (g : Option String → Except String (Option PRow)),
        (Except.ok lab : Except String (Option String)).bind g = g lab := fun _ => rfl
    rw [hbind] at h
    dsimp only at h
    split at h
    · simp at h
    · obtain ⟨dt, hdt, hfd⟩ := exceptMap_ok_inv _ _ _ h
      simp only [Option.some.injEq] at hfd
      subst hfd
      exact prowOk_new _ _ _ _ _ _ _ (xlNewLabel_ne_empty r.shift lab hlabv) _ _ _

theorem isSome_prepXlNew (r : XlNewRow) (hok : ∃ o, prepXlNew r = Except.ok o) :
    (((prepXlNew r).toOption).getD Option.none).isSome =
      !((strippedName r.chatter == (Option.none : Option String)) ||
        (strippedName r.chatter == some "") || !r.start_date.truthy) := by
  obtain ⟨o, ho⟩ := hok
  unfold prepXlNew at ho ⊢
  cases hlabv : xlNewLabel r.shift with
  | error e =>
    rw [hlabv] at ho
    exact Except.noConfusion ho
  | ok lab =>
    rw [hlabv] at ho
    have hbind : ∀ (g : Option String → Except String (Option PRow)),
        (Except.ok lab : Except String (Option String)).bind g = g lab := fun _ => rfl
    rw [hbind] at ho ⊢
    dsimp only at ho ⊢
    split at ho
    case isTrue hc =>
      rw [if_pos hc]
      rcases hc with h1 | h1 | h1 <;> simp [Except.toOption, h1]
    case isFalse hc =>
      rw [if_neg hc]
      push_neg at hc
      obtain ⟨h1, h2, h3⟩ := hc
      obtain ⟨dt, hdt, -⟩ := exceptMap_ok_inv _ _ _ ho
      rw [hdt]
      have h3' : r.start_date.truthy = true := by
        revert h3
        cases r.start_date.truthy <;> simp
      simp [Except.map, Except.toOption, h1, h2, h3']

theorem countP_isSome_prepXlNew (rows : List XlNewRow) (hwf : WfXlNew rows) :
    (rows.map (fun r => ((prepXlNew r).toOption).getD Option.none)).countP Option.isSome =
      rows.countP (fun r =>
        !((strippedName r.chatter == (Option.none : Option String)) ||
          (strippedName r.chatter == some "") || !r.start_date.truthy)) := by
  induction rows with
  | nil => rfl
  | cons r l ih =>
    have hr := hwf r (List.mem_cons_self _ _)
    have hl : WfXlNew l := fun r2 h2 => hwf r2 (List.mem_cons_of_mem _ h2)
    simp only [List.map_cons, List.countP_cons, ih hl, isSome_prepXlNew r hr]

theorem foldlM_masterStep_eq {α : Type} (prep : α → Except String (Option PRow)) :
    ∀ (rows : List α), (∀ r ∈ rows, ∃ o, prep r = Except.ok o) → ∀ st,
      rows.foldlM (fun s r => (prep r).map (masterStep s)) st =
        Except.ok
          ((rows.map (fun r => ((prep r).toOption).getD Option.none)).foldl masterStep st) := by
  intro rows
  induction rows with
  | nil =>
    intro _ st
    rfl
  | cons r l ih =>
    intro hwf st
    obtain ⟨o, ho⟩ := hwf r (List.mem_cons_self _ _)
    have hl := fun r2 h2 => hwf r2 (List.mem_cons_of_mem _ h2)
    rw [List.foldlM_cons, ho]
    have hstep : (Except.ok o : Except String (Option PRow)).map (masterStep st) =
        Except.ok (masterStep st o) := rfl
    rw [hstep]
    have hbind : ∀ (x : ImportState) (g : ImportState → Except String ImportState),
        (Except.ok x : Except String ImportState) >>= g = g x := fun _ _ => rfl
    rw [hbind]
    rw [ih hl (masterStep st o)]
    rw [List.map_cons, List.foldl_cons, ho]
    rfl

theorem importXlLegacy_eq_runCore (db : Store) (rows : List XlLegacyRow)
    (hwf : WfXlLegacy rows) :
    importXlLegacy db rows =
      ((runCore db (rows.map (fun r => ((prepXlLegacy r).toOption).getD Option.none))).store,
        Except.ok
          (statsOf
            (runCore db (rows.map (fun r => ((prepXlLegacy r).toOption).getD Option.none))))) := by
  unfold importXlLegacy
  rw [foldlM_masterStep_eq prepXlLegacy rows hwf (initState db)]
  rfl

theorem importXlNew_eq_runCore (db : Store) (rows : List XlNewRow)
    (hwf : WfXlNew rows) :
    importXlNew db rows =
      ((runCore db (rows.map (fun r => ((prepXlNew r).toOption).getD Option.none))).store,
        Except.ok
          { statsOf
              (runCore db (rows.map (fun r => ((prepXlNew r).toOption).getD Option.none))) with
            teams_created := 0 }) := by
  unfold importXlNew
  rw [foldlM_masterStep_eq prepXlNew rows hwf (initState db)]
  rfl

/-- C1: import idempotence.  For every store and every well-formed
file, in all four import paths (legacy CSV, simplified CSV,
legacy Excel, simplified Excel), running the import a second time on
the store produced by the first run yields statistics with
performance_records = 0 and shift_records = 0 (no new performance or
shift rows), and rows_skipped equal to the number of data rows that
have both a chatter name and a date. -/
theorem claim_C1_import_idempotence :
    (∀ (db : Store) (rows : List CsvLegacyRow), WfCsvLegacy rows →
      (importCsvLegacy (importCsvLegacy db rows).1 rows).2.performance_records = 0 ∧
      (importCsvLegacy (importCsvLegacy db rows).1 rows).2.shift_records = 0 ∧
      (importCsvLegacy (importCsvLegacy db rows).1 rows).2.rows_skipped =
        rows.countP (fun r => !(r.chatter_name == "") && !(r.date == ""))) ∧
    (∀ (db : Store) (rows : List CsvNewRow), WfCsvNew rows →
      (importCsvNew (importCsvNew db rows).1 rows).2.performance_records = 0 ∧
      (importCsvNew (importCsvNew db rows).1 rows).2.shift_records = 0 ∧
      (importCsvNew (importCsvNew db rows).1 rows).2.rows_skipped =
        rows.countP (fun r =>
          !(String.mk (trimChars r.chatter.data) == "") && !(r.start_date == ""))) ∧
    (∀ (db : Store) (rows : List XlLegacyRow), WfXlLegacy rows →
      ∃ stats, (importXlLegacy (importXlLegacy db rows).1 rows).2 = Except.ok stats ∧
        stats.performance_records = 0 ∧ stats.shift_records = 0 ∧
        stats.rows_skipped =
          rows.countP (fun r =>
            !((strippedName r.chatter_name == (Option.none : Option String)) ||
              (strippedName r.chatter_name == some "") || !r.date.truthy))) ∧
    (∀ (db : Store) (rows : List XlNewRow), WfXlNew rows →
      ∃ stats, (importXlNew (importXlNew db rows).1 rows).2 = Except.ok stats ∧
        stats.performance_records = 0 ∧ stats.shift_records = 0 ∧
        stats.rows_skipped =
          rows.countP (fun r =>
            !((strippedName r.chatter == (Option.none : Option String)) ||
              (strippedName r.chatter == some "") || !r.start_date.truthy))) := by
  refine ⟨?_, ?_, ?_, ?_⟩
  · intro db rows hwf
    have hok : ∀ pr, some pr ∈ rows.map prepCsvLegacy → PRowOk pr := by
      intro pr hmem
      obtain ⟨r, hr, hpr⟩ := List.mem_map.mp hmem
      exact prepCsvLegacy_ok r pr hpr
    have h := runCore_idempotent db (rows.map prepCsvLegacy) hok
    refine ⟨h.1, h.2.1, ?_⟩
    have h2 := h.2.2
    rw [countP_isSome_prepCsvLegacy rows hwf] at h2
    exact h2
  · intro db rows hwf
    have hok : ∀ pr, some pr ∈ rows.map prepCsvNew → PRowOk pr := by
      intro pr hmem
      obtain ⟨r, hr, hpr⟩ := List.mem_map.mp hmem
      exact prepCsvNew_ok r pr hpr
    have h := runCore_idempotent db (rows.map prepCsvNew) hok
    refine ⟨h.1, h.2.1, ?_⟩
    have h2 := h.2.2
    rw [countP_isSome_prepCsvNew rows hwf] at h2
    exact h2
  · intro db rows hwf
    have hok : ∀ pr,
        some pr ∈ rows.map (fun r => ((prepXlLegacy r).toOption).getD Option.none) →
        PRowOk pr := by
      intro pr hmem
      obtain ⟨r, hr, hpr⟩ := List.mem_map.mp hmem
      obtain ⟨o, ho⟩ := hwf r hr
      rw [ho] at hpr
      have ho2 : o = some pr := hpr
      rw [ho2] at ho
      exact prepXlLegacy_ok r pr ho
    have h := runCore_idempotent db
      (rows.map (fun r => ((prepXlLegacy r).toOption).getD Option.none)) hok
    have e1fst : (importXlLegacy db rows).1 =
        (runCore db (rows.map (fun r => ((prepXlLegacy r).toOption).getD Option.none))).store := by
      rw [importXlLegacy_eq_runCore db rows hwf]
    rw [e1fst, importXlLegacy_eq_runCore _ rows hwf]
    refine ⟨_, rfl, h.1, h.2.1, ?_⟩
    have h2 := h.2.2
    rw [countP_isSome_prepXlLegacy rows hwf] at h2
    exact h2
  · intro db rows hwf
    have hok : ∀ pr,
        some pr ∈ rows.map (fun r => ((prepXlNew r).toOption).getD Option.none) →
        PRowOk pr := by
      intro pr hmem
      obtain ⟨r, hr, hpr⟩ := List.mem_map.mp hmem
      obtain ⟨o, ho⟩ := hwf r hr
      rw [ho] at hpr
      have ho2 : o = some pr := hpr
      rw [ho2] at ho
      exact prepXlNew_ok r pr ho
    have h := runCore_idempotent db
      (rows.map (fun r => ((prepXlNew r).toOption).getD Option.none)) hok
    have e1fst : (importXlNew db rows).1 =
        (runCore db (rows.map (fun r => ((prepXlNew r).toOption).getD Option.none))).store := by
      rw [importXlNew_eq_runCore db rows hwf]
    rw [e1fst, importXlNew_eq_runCore _ rows hwf]
    refine ⟨_, rfl, h.1, h.2.1, ?_⟩
    have h2 := h.2.2
    rw [countP_isSome_prepXlNew rows hwf] at h2
    exact h2

/-- Witness for C1: the second run of the two-row legacy CSV file over
the empty store creates nothing and skips both rows. -/
theorem claim_C1_import_idempotence_witness :
    WfCsvLegacy c1File ∧
    ((importCsvLegacy (importCsvLegacy emptyStore c1File).1 c1File).2.performance_records = 0 ∧
     (importCsvLegacy (importCsvLegacy emptyStore c1File).1 c1File).2.shift_records = 0 ∧
     (importCsvLegacy (importCsvLegacy emptyStore c1File).1 c1File).2.rows_skipped =
       c1File.countP (fun r => !(r.chatter_name == "") && !(r.date == ""))) :=
  ⟨by unfold WfCsvLegacy; decide,
    claim_C1_import_idempotence.1 emptyStore c1File (by unfold WfCsvLegacy; decide)⟩

end Chatters
